import Mathlib

/-
Verification development for the single-hop HTTP relay
(serverless handler in api/fetch-site and the vite dev-server middleware).

The embedding models the relay pipeline over plain Lean data:
strings are lists of characters, header sets are association lists,
the outbound fetch collaborator is a function parameter, and the two
regex-based HTML transformations of the source are modelled as
executable recursive functions over character lists that follow the
semantics of the JavaScript regular expressions used in the source
(leftmost match, lazy and greedy repetition, case-insensitive flags,
global replacement).
-/

/-! ### Character classes used by the JavaScript regexes -/

/-- Single quote character, kept as a named constant. -/
def sqCh : Char := Char.ofNat 39

/-- Single quote as a one-character string. -/
def sqStr : String := String.mk [sqCh]

/-- JavaScript regex quote class: matches the characters of the class
made of the double quote and the single quote. -/
def isQuoteCh (c : Char) : Bool := c == '"' || c.toNat == 39

/-- JavaScript word character, as used by the word boundary assertion:
ASCII letters, ASCII digits and underscore. -/
def isWordChar (c : Char) : Bool := c.isAlpha || c.isDigit || c == '_'

/-- JavaScript whitespace class (the characters matched by a whitespace
escape in a regex): ASCII whitespace plus the Unicode space separators,
no-break space, line and paragraph separators and the byte order mark. -/
def jsSpace (c : Char) : Bool :=
  c == ' ' || c == '\t' || c == '\n' || c == '\r' ||
    c.toNat == 11 || c.toNat == 12 || c.toNat == 160 ||
    c.toNat == 0x1680 ||
    (decide (0x2000 ≤ c.toNat) && decide (c.toNat ≤ 0x200A)) ||
    c.toNat == 0x2028 || c.toNat == 0x2029 || c.toNat == 0x202F ||
    c.toNat == 0x205F || c.toNat == 0xFEFF

/-- ASCII letter test (used for URL scheme parsing). -/
def isAsciiLetter (c : Char) : Bool := c.isAlpha

/-- Characters allowed after the first character of a URL scheme. -/
def isSchemeChar (c : Char) : Bool :=
  c.isAlpha || c.isDigit || c == '+' || c == '-' || c == '.'

/-! ### String helpers -/

/-- Lowercase a string character by character (ASCII lowering, which is
what applies to the header names and schemes handled by the relay). -/
def lowerStr (s : String) : String := String.mk (s.data.map Char.toLower)

/-- Exact prefix test on character lists. -/
def hasPrefL : List Char → List Char → Bool
  | [], _ => true
  | _ :: _, [] => false
  | p :: ps, c :: cs => p == c && hasPrefL ps cs

/-- Case-insensitive prefix test: the pattern is given already in
lowercase and each subject character is lowered before comparison. -/
def ciHasPrefixL : List Char → List Char → Bool
  | [], _ => true
  | _ :: _, [] => false
  | p :: ps, c :: cs => p == c.toLower && ciHasPrefixL ps cs

/-- Substring occurrence test on character lists, modelling the
JavaScript string includes check. -/
def containsSubL (pat : List Char) : List Char → Bool
  | [] => pat.isEmpty
  | c :: cs => hasPrefL pat (c :: cs) || containsSubL pat cs

/-! ### URL model

A shallow model of the WHATWG URL objects produced by the URL
constructor, with the components the relay reads: protocol, host,
pathname, search, hash and origin.  Scheme and host are stored
lowercased, as the platform parser lowers them.  Simplifications that
do not affect the theorems below (which are conditional on the output
of this parser, or exercised on inputs where the model agrees with the
platform): default ports are not dropped, dot segments in paths are
not collapsed, punycoding and percent-normalisation of components are
not performed, and the slash-recovering parse of special schemes
without a double slash is not modelled. -/

structure URLRec where
  scheme : String
  auth : Bool
  host : String
  pathname : String
  search : String
  hash : String
deriving DecidableEq

/-- Schemes whose URLs have a network origin. -/
def NETWORK_SCHEMES : List String := ["http", "https", "ws", "wss", "ftp"]

/-- Special schemes of the URL standard (network schemes plus file). -/
def isSpecialScheme (s : String) : Bool := NETWORK_SCHEMES.contains s || s == "file"

/-- Serialisation of a parsed URL, as returned by the toString method. -/
def urlToString (u : URLRec) : String :=
  u.scheme ++ ":" ++ (if u.auth then "//" ++ u.host else "") ++ u.pathname ++ u.search ++ u.hash

/-- The protocol property (scheme followed by a colon). -/
def urlProtocol (u : URLRec) : String := u.scheme ++ ":"

/-- The origin property: scheme and host for network schemes, the
opaque null origin otherwise. -/
def urlOrigin (u : URLRec) : String :=
  if NETWORK_SCHEMES.contains u.scheme then u.scheme ++ "://" ++ u.host else "null"

/-- Scan the tail of a scheme: characters up to a colon. -/
def schemeTail : List Char → Option (List Char × List Char)
  | [] => none
  | c :: cs =>
    if c == ':' then some ([], cs)
    else if isSchemeChar c then (schemeTail cs).map (fun p => (c :: p.1, p.2))
    else none

/-- Split a leading scheme (a letter, scheme characters, a colon) from
the rest of the string; none when the string has no such scheme. -/
def splitScheme : List Char → Option (List Char × List Char)
  | [] => none
  | c :: cs =>
    if isAsciiLetter c then (schemeTail cs).map (fun p => (c :: p.1, p.2)) else none

/-- Split a host: characters up to the first slash, question mark or
hash, together with the remainder. -/
def splitHost : List Char → List Char × List Char
  | [] => ([], [])
  | c :: cs =>
    if c == '/' || c == '?' || c == '#' then ([], c :: cs)
    else
      let p := splitHost cs
      (c :: p.1, p.2)

/-- Split a string at the first hash: the part before it and the part
from the hash on. -/
def splitHash : List Char → List Char × List Char
  | [] => ([], [])
  | c :: cs =>
    if c == '#' then ([], c :: cs)
    else
      let p := splitHash cs
      (c :: p.1, p.2)

/-- Split a string at the first question mark: the part before it and
the part from the question mark on. -/
def splitQ : List Char → List Char × List Char
  | [] => ([], [])
  | c :: cs =>
    if c == '?' then ([], c :: cs)
    else
      let p := splitQ cs
      (c :: p.1, p.2)

/-- Split a path-query-hash tail into pathname, search and hash. -/
def splitPQH (l : List Char) : List Char × List Char × List Char :=
  let ph := splitHash l
  let pq := splitQ ph.1
  (pq.1, pq.2, ph.2)

/-- Parse an absolute URL string, modelling the one-argument URL
constructor: none models the constructor throwing. -/
def parseJsURL (s : String) : Option URLRec :=
  match splitScheme s.data with
  | none => none
  | some (sch, rest) =>
    let scheme := lowerStr (String.mk sch)
    if hasPrefL ['/', '/'] rest then
      let hp := splitHost (rest.drop 2)
      if hp.1.isEmpty && isSpecialScheme scheme then none
      else
        let pqh := splitPQH hp.2
        let path := if pqh.1.isEmpty && isSpecialScheme scheme then "/" else String.mk pqh.1
        some ⟨scheme, true, lowerStr (String.mk hp.1), path, String.mk pqh.2.1, String.mk pqh.2.2⟩
    else
      let pqh := splitPQH rest
      some ⟨scheme, false, "", String.mk pqh.1, String.mk pqh.2.1, String.mk pqh.2.2⟩

/-- Directory part of a pathname: everything up to and including the
last slash; the root when the pathname has no slash. -/
def dirOf (p : String) : String :=
  let r := p.data.reverse
  let cut := r.drop ((r.takeWhile (fun c => !(c == '/'))).length)
  if cut.isEmpty then "/" else String.mk cut.reverse

/-- Resolve a scheme-less reference against a parsed base URL,
modelling the relative cases of the two-argument URL constructor. -/
def resolveRel (b : URLRec) (href : String) : Option URLRec :=
  match href.data with
  | [] => some b
  | '/' :: '/' :: rest =>
    let hp := splitHost rest
    if hp.1.isEmpty && isSpecialScheme b.scheme then none
    else
      let pqh := splitPQH hp.2
      let path := if pqh.1.isEmpty && isSpecialScheme b.scheme then "/" else String.mk pqh.1
      some ⟨b.scheme, true, lowerStr (String.mk hp.1), path, String.mk pqh.2.1, String.mk pqh.2.2⟩
  | '/' :: rest =>
    let pqh := splitPQH ('/' :: rest)
    some ⟨b.scheme, b.auth, b.host, String.mk pqh.1, String.mk pqh.2.1, String.mk pqh.2.2⟩
  | '?' :: rest =>
    let qh := splitHash ('?' :: rest)
    some ⟨b.scheme, b.auth, b.host, b.pathname, String.mk qh.1, String.mk qh.2⟩
  | '#' :: _ => some ⟨b.scheme, b.auth, b.host, b.pathname, b.search, href⟩
  | _ =>
    if b.auth then
      let pqh := splitPQH href.data
      some ⟨b.scheme, b.auth, b.host, dirOf b.pathname ++ String.mk pqh.1,
        String.mk pqh.2.1, String.mk pqh.2.2⟩
    else none

/-- Two-argument URL constructor: an absolute reference ignores the
base; otherwise the base is parsed and the reference resolved against
it; none models the constructor throwing. -/
def jsURL (href base : String) : Option URLRec :=
  match parseJsURL href with
  | some u => some u
  | none =>
    match parseJsURL base with
    | none => none
    | some b => resolveRel b href

/-! ### Percent encoding

Model of encodeURIComponent and of the percent decoding used to state
the round-trip property of the rewritten links.  The encoder keeps the
unreserved characters of encodeURIComponent and percent-encodes the
UTF-8 bytes of every other character. -/

/-- Unreserved characters of encodeURIComponent. -/
def isUnreservedURI (c : Char) : Bool :=
  c.isAlpha || c.isDigit || c == '-' || c == '_' || c == '.' ||
    c == '!' || c == '~' || c == '*' || c.toNat == 39 || c == '(' || c == ')'

/-- UTF-8 bytes of a character, as natural numbers. -/
def utf8Bytes (c : Char) : List Nat :=
  let n := c.toNat
  if n < 0x80 then [n]
  else if n < 0x800 then [0xC0 + n / 64, 0x80 + n % 64]
  else if n < 0x10000 then [0xE0 + n / 4096, 0x80 + (n / 64) % 64, 0x80 + n % 64]
  else [0xF0 + n / 262144, 0x80 + (n / 4096) % 64, 0x80 + (n / 64) % 64, 0x80 + n % 64]

/-- Uppercase hexadecimal digit for a value below sixteen. -/
def hexDigitU (n : Nat) : Char :=
  if n < 10 then Char.ofNat (48 + n) else Char.ofNat (55 + n)

/-- Percent-escape of one byte. -/
def pctByte (b : Nat) : List Char := ['%', hexDigitU (b / 16), hexDigitU (b % 16)]

/-- Encoding of one character in encodeURIComponent. -/
def encChar (c : Char) : List Char :=
  if isUnreservedURI c then [c] else (utf8Bytes c).foldr (fun b acc => pctByte b ++ acc) []

/-- Encoding of a character list in encodeURIComponent. -/
def encodeL : List Char → List Char
  | [] => []
  | c :: cs => encChar c ++ encodeL cs

/-- Model of encodeURIComponent. -/
def encodeURIComponent (s : String) : String := String.mk (encodeL s.data)

/-- Value of one hexadecimal digit character. -/
def hexVal? (c : Char) : Option Nat :=
  if decide (48 ≤ c.toNat) && decide (c.toNat ≤ 57) then some (c.toNat - 48)
  else if decide (65 ≤ c.toNat) && decide (c.toNat ≤ 70) then some (c.toNat - 55)
  else if decide (97 ≤ c.toNat) && decide (c.toNat ≤ 102) then some (c.toNat - 87)
  else none

/-- Turn a percent-encoded character list into a byte list: percent
escapes become their byte, other characters contribute their UTF-8
bytes. -/
def pctToBytes : List Char → List Nat
  | [] => []
  | c :: rest =>
    if c == '%' then
      match rest with
      | h :: l :: rest2 =>
        match hexVal? h, hexVal? l with
        | some a, some b => (16 * a + b) :: pctToBytes rest2
        | _, _ => utf8Bytes c ++ pctToBytes (h :: l :: rest2)
      | [] => utf8Bytes c ++ pctToBytes []
      | [h] => utf8Bytes c ++ pctToBytes [h]
    else utf8Bytes c ++ pctToBytes rest

/-- Fuel-driven UTF-8 decoding loop: an ASCII byte yields its
character, a multi-byte lead consumes its continuation bytes (missing
continuations are padded, a best-effort total treatment of malformed
input that the theorems below never exercise). -/
def utf8DecodeGo : Nat → List Nat → List Char
  | _, [] => []
  | 0, _ => []
  | f + 1, b :: rest =>
    if b < 0x80 then Char.ofNat b :: utf8DecodeGo f rest
    else if decide (0xC0 ≤ b) && decide (b < 0xE0) then
      Char.ofNat ((b - 0xC0) * 64 + (rest.headD 0x80 - 0x80)) :: utf8DecodeGo f (rest.drop 1)
    else if decide (0xE0 ≤ b) && decide (b < 0xF0) then
      Char.ofNat ((b - 0xE0) * 4096 + (rest.headD 0x80 - 0x80) * 64 +
        ((rest.drop 1).headD 0x80 - 0x80)) :: utf8DecodeGo f (rest.drop 2)
    else
      Char.ofNat ((b - 0xF0) * 262144 + (rest.headD 0x80 - 0x80) * 4096 +
        ((rest.drop 1).headD 0x80 - 0x80) * 64 + ((rest.drop 2).headD 0x80 - 0x80)) ::
        utf8DecodeGo f (rest.drop 3)

/-- Decode a UTF-8 byte list back into characters. -/
def utf8Decode (l : List Nat) : List Char := utf8DecodeGo l.length l

/-- Model of decodeURIComponent (total: malformed escapes pass through
rather than throwing, a case the theorems below never exercise). -/
def decodeURIComponent (s : String) : String := String.mk (utf8Decode (pctToBytes s.data))

/-- ASCII test for a character list. -/
def allAscii (l : List Char) : Bool := l.all (fun c => c.toNat < 128)

/-! ### Base tag injection

Model of the first transformation of the HTML rewriter: the
replacement of the first case-insensitive match of the head-tag
pattern (the characters of "<head", a run of non-greater-than
characters, a closing greater-than) by the match followed by the
injected base element.  The replace call in the source is non-global,
so only the leftmost match is rewritten. -/

/-- Split a list at the first greater-than sign: the part up to and
including it, and the remainder; none when there is no such sign. -/
def splitAtGt : List Char → Option (List Char × List Char)
  | [] => none
  | c :: cs =>
    if c == '>' then some ([c], cs)
    else (splitAtGt cs).map (fun p => (c :: p.1, p.2))

/-- Try the head-tag pattern at the start of the input: the
case-insensitive characters of "<head" followed by a run of
non-greater-than characters and a closing greater-than; on success
return the matched text and the remainder. -/
def tryHeadAt (l : List Char) : Option (List Char × List Char) :=
  if ciHasPrefixL ['<', 'h', 'e', 'a', 'd'] l then
    match splitAtGt (l.drop 5) with
    | some p => some (l.take 5 ++ p.1, p.2)
    | none => none
  else none

/-- Leftmost match of the head-tag pattern: returns the text before
the match, the matched text and the text after it. -/
def headSplit : List Char → Option (List Char × List Char × List Char)
  | [] => none
  | c :: cs =>
    match tryHeadAt (c :: cs) with
    | some p => some ([], p.1, p.2)
    | none => (headSplit cs).map (fun q => (c :: q.1, q.2))

/-- The injected base element for a given upstream origin, including
the leading newline of the replacement template. -/
def baseTag (origin : String) : String :=
  "\n<base href=\"" ++ origin ++ "/\" />"

/-- Base injection: replace the first match of the head-tag pattern by
itself followed by the base element; leave the document unchanged when
there is no match. -/
def injectBase (origin : String) (html : String) : String :=
  match headSplit html.data with
  | some p => String.mk (p.1 ++ p.2.1 ++ (baseTag origin).data ++ p.2.2)
  | none => html

/-! ### Anchor matching

Model of the global anchor regex of the link rewrite: an opening
angle bracket and the letter a, a word boundary, a lazy run of
non-greater-than characters, one whitespace character, the characters
of "href=" (case-insensitive), an opening quote of either kind, a
greedy run of characters that are not quotes of either kind, and a
closing quote of either kind. -/

/-- Capture groups of one anchor match: the text from the opening
bracket through the equals sign, the opening quote, the href value and
the closing quote. -/
structure AGroups where
  g1 : List Char
  q1 : Char
  href : List Char
  q2 : Char
deriving DecidableEq

/-- The full matched text of an anchor match. -/
def wholeMatch (g : AGroups) : List Char := g.g1 ++ [g.q1] ++ g.href ++ [g.q2]

/-- Greedy run of characters that are not quotes of either kind,
together with the remainder. -/
def takeNonQuote : List Char → List Char × List Char
  | [] => ([], [])
  | c :: cs =>
    if isQuoteCh c then ([], c :: cs)
    else
      let p := takeNonQuote cs
      (c :: p.1, p.2)

/-- Word boundary after the letter a of the anchor tag: the next
character is not a word character (or the input ends). -/
def wordBoundary : List Char → Bool
  | [] => true
  | c :: _ => !(isWordChar c)

/-- Scan for the whitespace-href-equals-quote-value-quote part of the
anchor pattern, with the lazy semantics of the regex: the earliest
position where the whole remainder of the pattern matches wins, the
lazy run cannot consume a greater-than sign, and a partial match that
fails on the closing quote backtracks to a later position.  Returns
the consumed middle text (whitespace through the equals sign), the
opening quote, the href value, the closing quote and the remainder. -/
def tryHrefAt (c : Char) (cs : List Char) :
    Option (List Char × Char × List Char × Char × List Char) :=
  if jsSpace c && ciHasPrefixL ['h', 'r', 'e', 'f', '='] cs then
    match cs.drop 5 with
    | q :: rest =>
      if isQuoteCh q then
        match takeNonQuote rest with
        | (g3, q2 :: rest3) => some (c :: cs.take 5, q, g3, q2, rest3)
        | (_, []) => none
      else none
    | [] => none
  else none

/-- Scan for the match of the remainder of the anchor pattern (see
`tryHrefAt`), advancing one character at a time as the lazy run does,
and failing outright at a greater-than sign. -/
def findHrefEq : List Char → Option (List Char × Char × List Char × Char × List Char)
  | [] => none
  | c :: cs =>
    match tryHrefAt c cs with
    | some r => some r
    | none =>
      if c == '>' then none
      else (findHrefEq cs).map (fun r => (c :: r.1, r.2))

/-- Try the anchor pattern at the start of the input; on success
return the capture groups and the remainder after the match. -/
def tryAnchor : List Char → Option (AGroups × List Char)
  | '<' :: c :: rest =>
    if (c == 'a' || c == 'A') && wordBoundary rest then
      match findHrefEq rest with
      | some (mid, q1, h, q2, rest3) => some (⟨'<' :: c :: mid, q1, h, q2⟩, rest3)
      | none => none
    else none
  | _ => none

/-- Leftmost anchor match in a document: text before the match, the
capture groups, and the text after the match. -/
def firstAnchor : List Char → Option (List Char × AGroups × List Char)
  | [] => none
  | c :: cs =>
    match tryAnchor (c :: cs) with
    | some p => some ([], p.1, p.2)
    | none => (firstAnchor cs).map (fun q => (c :: q.1, q.2))

/-- Fuel-driven global replacement loop of the anchor regex: scan left
to right, replace each non-overlapping match by the value of the
replacement function, resume after the match. -/
def goRepl (repl : AGroups → List Char) : Nat → List Char → List Char
  | _, [] => []
  | 0, l => l
  | f + 1, c :: cs =>
    match tryAnchor (c :: cs) with
    | some (g, rest) => repl g ++ goRepl repl f rest
    | none => c :: goRepl repl f cs

/-- Global replacement of every anchor match in a document. -/
def globalReplace (repl : AGroups → List Char) (l : List Char) : List Char :=
  goRepl repl l.length l

/-! ### The anchor replacement callback -/

/-- Skip condition of the callback: the href is empty or starts,
case-insensitively, with a hash, javascript colon, mailto colon or tel
colon. -/
def skipHref (h : List Char) : Bool :=
  h.isEmpty || ciHasPrefixL ['#'] h ||
    ciHasPrefixL ['j', 'a', 'v', 'a', 's', 'c', 'r', 'i', 'p', 't', ':'] h ||
    ciHasPrefixL ['m', 'a', 'i', 'l', 't', 'o', ':'] h ||
    ciHasPrefixL ['t', 'e', 'l', ':'] h

/-- Replacement callback of the link rewrite: keep the match for
skipped hrefs, for hrefs that fail to resolve and for cross-origin
targets; rewrite same-origin targets into a relay link built from the
relay base, the relay route and the percent-encoded absolute URL. -/
def anchorRepl (targetOrigin targetPathname proxyBase route : String) (g : AGroups) : List Char :=
  if skipHref g.href then wholeMatch g
  else
    match jsURL (String.mk g.href) (targetOrigin ++ targetPathname) with
    | none => wholeMatch g
    | some abs =>
      if urlOrigin abs == targetOrigin then
        g.g1 ++ [g.q1] ++
          (proxyBase ++ route ++ "?url=" ++ encodeURIComponent (urlToString abs)).data ++ [g.q2]
      else wholeMatch g

/-! ### Header operations -/

/-- The fixed set of header names the relay never forwards. -/
def BLOCKED_HEADERS : List String :=
  ["x-frame-options", "content-security-policy", "content-security-policy-report-only",
    "cross-origin-opener-policy", "cross-origin-embedder-policy", "content-encoding",
    "transfer-encoding"]

/-- Membership test in the blocked set (applied to a lowered name). -/
def isBlocked (k : String) : Bool := BLOCKED_HEADERS.contains k

/-- Node response setHeader: replace any header with the same
case-insensitive name, then add the new one. -/
def setHeader (hs : List (String × String)) (k v : String) : List (String × String) :=
  hs.filter (fun p => !(lowerStr p.1 == lowerStr k)) ++ [(k, v)]

/-- Node response removeHeader: drop every header with the same
case-insensitive name. -/
def removeHeader (hs : List (String × String)) (k : String) : List (String × String) :=
  hs.filter (fun p => !(lowerStr p.1 == lowerStr k))

/-- Case-insensitive header lookup of an emitted header set. -/
def ciLookup (hs : List (String × String)) (k : String) : Option String :=
  (hs.find? (fun p => lowerStr p.1 == lowerStr k)).map (fun p => p.2)

/-- Fetch Headers get: case-insensitive lookup on the upstream header
list. -/
def headersGet (hs : List (String × String)) (k : String) : Option String :=
  ciLookup hs k

/-- JavaScript object assignment on a string-keyed record: overwrite
in place when the exact key exists, append otherwise. -/
def recSet (r : List (String × String)) (k v : String) : List (String × String) :=
  if r.any (fun p => p.1 == k) then r.map (fun p => if p.1 == k then (k, v) else p)
  else r ++ [(k, v)]

/-- JavaScript delete of an exact key from a string-keyed record. -/
def recDel (r : List (String × String)) (k : String) : List (String × String) :=
  r.filter (fun p => !(p.1 == k))

/-- Node writeHead with a header object: the object entries are
applied in order through setHeader. -/
def writeHeadHeaders (r : List (String × String)) : List (String × String) :=
  r.foldl (fun acc kv => setHeader acc kv.1 kv.2) []

/-! ### The two relay embeddings -/

/-- Upstream response as seen through the fetch collaborator: the
final URL after redirects, the status, the headers and the fully
buffered body. -/
structure FetchResponse where
  url : String
  status : Nat
  headers : List (String × String)
  body : String
deriving DecidableEq

/-- Outcome of the outbound fetch: a response, or the message of the
error it threw. -/
inductive FetchOutcome where
  | success (r : FetchResponse)
  | failure (msg : String)
deriving DecidableEq

/-- Response emitted to the caller. -/
structure HttpResponse where
  status : Nat
  headers : List (String × String)
  body : String
deriving DecidableEq

/-- Serverless relay handler (api/fetch-site): validate the url query
parameter, fetch the target, filter and force headers, rewrite HTML
bodies (base injection then anchor rewrite with the api route and an
https relay base), pass other bodies through, and surface any thrown
error as a 502 proxy error. -/
def handler (rawUrl : Option String) (reqHost : Option String)
    (fetchFn : String → FetchOutcome) : HttpResponse :=
  match rawUrl with
  | none => ⟨400, [], "Missing ?url= parameter"⟩
  | some raw =>
    if raw == "" then ⟨400, [], "Missing ?url= parameter"⟩
    else
      match parseJsURL raw with
      | none => ⟨400, [], "Invalid URL"⟩
      | some target =>
        match fetchFn (urlToString target) with
        | .failure msg => ⟨502, [], "Proxy error: " ++ msg⟩
        | .success up =>
          let fwd := up.headers.foldl
            (fun acc kv => if isBlocked (lowerStr kv.1) then acc else setHeader acc kv.1 kv.2) []
          let hs1 := setHeader (setHeader fwd "x-frame-options" "ALLOWALL")
            "access-control-allow-origin" "*"
          let contentType := (headersGet up.headers "content-type").getD ""
          if containsSubL ['t', 'e', 'x', 't', '/', 'h', 't', 'm', 'l'] contentType.data then
            let targetOrigin := urlProtocol target ++ "//" ++ target.host
            let proxyBase := "https://" ++ reqHost.getD ""
            let html1 := injectBase targetOrigin up.body
            let html2 := String.mk (globalReplace
              (anchorRepl targetOrigin target.pathname proxyBase "/api/fetch-site") html1.data)
            ⟨up.status,
              removeHeader (setHeader hs1 "content-type" "text/html; charset=utf-8")
                "content-length",
              html2⟩
          else ⟨up.status, hs1, up.body⟩

/-- Dev-server middleware (vite proxy-middleware): same pipeline with
a JavaScript record for the response headers, the bare fetch-site
route, an http relay base with a default host, a 502 on an unparseable
url value (the URL constructor throws inside the try block and its
message is the text Invalid URL), and an explicit content-length on
the passthrough branch. -/
def middleware (rawUrl : Option String) (reqHost : Option String)
    (fetchFn : String → FetchOutcome) : HttpResponse :=
  match rawUrl with
  | none => ⟨400, [("Content-Type", "text/plain")], "Missing ?url= parameter"⟩
  | some raw =>
    if raw == "" then ⟨400, [("Content-Type", "text/plain")], "Missing ?url= parameter"⟩
    else
      match parseJsURL raw with
      | none => ⟨502, [("Content-Type", "text/plain")], "Proxy error: Invalid URL"⟩
      | some target =>
        match fetchFn (urlToString target) with
        | .failure msg => ⟨502, [("Content-Type", "text/plain")], "Proxy error: " ++ msg⟩
        | .success up =>
          let r0 := up.headers.foldl
            (fun acc kv => if isBlocked (lowerStr kv.1) then acc else recSet acc kv.1 kv.2) []
          let r1 := recSet (recSet r0 "x-frame-options" "ALLOWALL")
            "access-control-allow-origin" "*"
          let contentType := (headersGet up.headers "content-type").getD ""
          if containsSubL ['t', 'e', 'x', 't', '/', 'h', 't', 'm', 'l'] contentType.data then
            let targetOrigin := urlProtocol target ++ "//" ++ target.host
            let proxyBase := "http://" ++ reqHost.getD "localhost:5174"
            let html1 := injectBase targetOrigin up.body
            let html2 := String.mk (globalReplace
              (anchorRepl targetOrigin target.pathname proxyBase "/fetch-site") html1.data)
            ⟨up.status,
              writeHeadHeaders
                (recDel (recSet r1 "content-type" "text/html; charset=utf-8") "content-length"),
              html2⟩
          else
            ⟨up.status,
              writeHeadHeaders (recSet r1 "content-length" (toString up.body.length)),
              up.body⟩

/-! ### Basic lemmas on prefixes and the percent-coding round trip -/

/-- A list is an exact prefix of itself followed by anything. -/
theorem hasPrefL_append (a b : List Char) : hasPrefL a (a ++ b) = true := by
  induction a with
  | nil => rfl
  | cons c cs ih => simp [hasPrefL, ih]

/-- The uppercase hex digit of a value below sixteen decodes back to
that value. -/
theorem hexVal_hexDigitU (n : Nat) (h : n < 16) : hexVal? (hexDigitU n) = some n := by
  interval_cases n <;> rfl

/-- Unreserved characters are not the percent sign. -/
theorem isUnreservedURI_ne_pct (c : Char) (h : isUnreservedURI c = true) : ¬ c = '%' := by
  intro hc
  subst hc
  simp [isUnreservedURI] at h

/-- Percent-decoding a list headed by a character other than the
percent sign contributes the UTF-8 bytes of that character. -/
theorem pctToBytes_cons_ne (c : Char) (rest : List Char) (hbe : (c == '%') = false) :
    pctToBytes (c :: rest) = utf8Bytes c ++ pctToBytes rest := by
  rw [pctToBytes.eq_def]
  simp [hbe]

/-- Percent-decoding a well-formed escape yields its byte. -/
theorem pctToBytes_escape (h l : Char) (rest : List Char) (a b : Nat)
    (hh : hexVal? h = some a) (hl : hexVal? l = some b) :
    pctToBytes ('%' :: h :: l :: rest) = (16 * a + b) :: pctToBytes rest := by
  rw [pctToBytes.eq_def]
  simp [hh, hl]

/-- Percent-decoding one encoded ASCII character yields its code. -/
theorem pctToBytes_encChar (c : Char) (rest : List Char) (hc : c.toNat < 128) :
    pctToBytes (encChar c ++ rest) = c.toNat :: pctToBytes rest := by
  by_cases hu : isUnreservedURI c = true
  · have hne : ¬ c = '%' := isUnreservedURI_ne_pct c hu
    have hbe : (c == '%') = false := by
      simp [hne]
    rw [encChar, if_pos hu]
    rw [List.singleton_append, pctToBytes_cons_ne c rest hbe, utf8Bytes]
    simp [hc]
  · have hb : ¬ isUnreservedURI c = true := hu
    have h16 : c.toNat / 16 < 16 := by omega
    have h16b : c.toNat % 16 < 16 := by omega
    rw [encChar, if_neg hb, utf8Bytes]
    simp only [hc, if_pos]
    rw [List.foldr_cons, List.foldr_nil, List.append_nil, pctByte]
    rw [List.cons_append, List.cons_append, List.cons_append, List.nil_append]
    rw [pctToBytes_escape _ _ _ _ _ (hexVal_hexDigitU _ h16) (hexVal_hexDigitU _ h16b)]
    congr 1
    omega

/-- UTF-8 decoding of a leading ASCII byte. -/
theorem utf8Decode_ascii (b : Nat) (rest : List Nat) (hb : b < 128) :
    utf8Decode (b :: rest) = Char.ofNat b :: utf8Decode rest := by
  show utf8DecodeGo (rest.length + 1) (b :: rest) = Char.ofNat b :: utf8DecodeGo rest.length rest
  rw [utf8DecodeGo.eq_def]
  simp [hb]

/-- Round trip of the percent coding on ASCII character lists. -/
theorem pct_roundtrip (l : List Char) (h : allAscii l = true) :
    utf8Decode (pctToBytes (encodeL l)) = l := by
  induction l with
  | nil => rfl
  | cons c cs ih =>
    have hall : c.toNat < 128 ∧ allAscii cs = true := by
      simpa [allAscii, List.all_cons] using h
    have hc := hall.1
    rw [encodeL, pctToBytes_encChar c (encodeL cs) hc, utf8Decode_ascii c.toNat _ hc,
      Char.ofNat_toNat, ih hall.2]

/-- Round trip of the percent coding on ASCII strings: decoding an
encoded string restores it. -/
theorem decode_encode_ascii (s : String) (h : allAscii s.data = true) :
    decodeURIComponent (encodeURIComponent s) = s := by
  show String.mk (utf8Decode (pctToBytes (encodeL s.data))) = s
  rw [pct_roundtrip s.data h]

/-! ### Structure of the anchor regex machinery -/

/-- The greedy non-quote run and its remainder assemble back to the
input. -/
theorem takeNonQuote_decomp (l : List Char) :
    l = (takeNonQuote l).1 ++ (takeNonQuote l).2 := by
  induction l with
  | nil => rfl
  | cons c cs ih =>
    by_cases h : isQuoteCh c = true
    · simp [takeNonQuote, h]
    · have hb : isQuoteCh c = false := by
        simp at h
        simp [h]
      simp only [takeNonQuote, hb]
      simpa using ih

/-- Characters of the greedy non-quote run are not quotes. -/
theorem takeNonQuote_fst_noquote (l : List Char) :
    ∀ c ∈ (takeNonQuote l).1, isQuoteCh c = false := by
  induction l with
  | nil => intro c hc; simp [takeNonQuote] at hc
  | cons c cs ih =>
    intro x hx
    by_cases h : isQuoteCh c = true
    · simp [takeNonQuote, h] at hx
    · have hb : isQuoteCh c = false := by
        simp at h
        simp [h]
      simp only [takeNonQuote, hb, Bool.false_eq_true, if_false] at hx
      rcases List.mem_cons.mp hx with h1 | h2
      · rwa [h1]
      · exact ih x h2

/-- The remainder of the greedy non-quote run starts with a quote when
it is nonempty. -/
theorem takeNonQuote_snd_quote (l : List Char) (c : Char) (b : List Char)
    (h : (takeNonQuote l).2 = c :: b) : isQuoteCh c = true := by
  induction l with
  | nil => simp [takeNonQuote] at h
  | cons d ds ih =>
    by_cases hq : isQuoteCh d = true
    · simp [takeNonQuote, hq] at h
      rw [← h.1]
      exact hq
    · have hb : isQuoteCh d = false := by
        simp at hq
        simp [hq]
      simp only [takeNonQuote, hb, Bool.false_eq_true, if_false] at h
      exact ih h


/-- Properties of a successful inner match of the anchor pattern: the
remainder is no longer than the input tail, both quotes are quote
characters and the href value is quote-free. -/
theorem tryHrefAt_some (c : Char) (cs mid g3 rest3 : List Char) (q1 q2 : Char)
    (h : tryHrefAt c cs = some (mid, q1, g3, q2, rest3)) :
    rest3.length ≤ cs.length ∧ isQuoteCh q1 = true ∧ isQuoteCh q2 = true ∧
      (∀ x ∈ g3, isQuoteCh x = false) := by
  unfold tryHrefAt at h
  by_cases hcond : (jsSpace c && ciHasPrefixL ['h', 'r', 'e', 'f', '='] cs) = true
  · rw [if_pos hcond] at h
    cases hdrop : cs.drop 5 with
    | nil => rw [hdrop] at h; exact absurd h (by simp)
    | cons q rest =>
      rw [hdrop] at h
      dsimp only at h
      by_cases hq : isQuoteCh q = true
      · rw [if_pos hq] at h
        cases htq : takeNonQuote rest with
        | mk g3x snd =>
          cases snd with
          | nil => rw [htq] at h; dsimp only at h; exact absurd h (by simp)
          | cons q2x rest3x =>
            rw [htq] at h
            dsimp only at h
            simp only [Option.some.injEq, Prod.mk.injEq] at h
            obtain ⟨h1, h2, h3, h4, h5⟩ := h
            subst h2 h3 h4 h5
            refine ⟨?_, hq, ?_, ?_⟩
            · have hd := takeNonQuote_decomp rest
              rw [htq] at hd
              have hlen := congrArg List.length hd
              simp at hlen
              have hdl := congrArg List.length hdrop
              simp at hdl
              omega
            · exact takeNonQuote_snd_quote rest q2x rest3x (by rw [htq])
            · intro x hx
              have hnq := takeNonQuote_fst_noquote rest
              rw [htq] at hnq
              exact hnq x hx
      · rw [if_neg hq] at h
        exact absurd h (by simp)
  · rw [if_neg hcond] at h
    exact absurd h (by simp)

/-- Properties of a successful scan: the remainder is strictly shorter
than the input, both quotes are quote characters and the href value is
quote-free. -/
theorem findHrefEq_some (l : List Char) (mid g3 rest : List Char) (q1 q2 : Char)
    (h : findHrefEq l = some (mid, q1, g3, q2, rest)) :
    rest.length < l.length ∧ isQuoteCh q1 = true ∧ isQuoteCh q2 = true ∧
      (∀ x ∈ g3, isQuoteCh x = false) := by
  induction l generalizing mid with
  | nil => rw [show findHrefEq [] = none from rfl] at h; exact absurd h (by simp)
  | cons c cs ih =>
    rw [show findHrefEq (c :: cs) = (match tryHrefAt c cs with
      | some r => some r
      | none => if c == '>' then none
        else (findHrefEq cs).map (fun r => (c :: r.1, r.2))) from rfl] at h
    cases htry : tryHrefAt c cs with
    | some r =>
      rw [htry] at h
      dsimp only at h
      simp only [Option.some.injEq] at h
      subst h
      obtain ⟨hl, h2, h3, h4⟩ := tryHrefAt_some c cs mid g3 rest q1 q2 htry
      exact ⟨by simp; omega, h2, h3, h4⟩
    | none =>
      rw [htry] at h
      dsimp only at h
      by_cases hgt : (c == '>') = true
      · rw [if_pos hgt] at h; exact absurd h (by simp)
      · rw [if_neg hgt] at h
        cases hrec : findHrefEq cs with
        | some r =>
          obtain ⟨mid', rr⟩ := r
          rw [hrec] at h
          dsimp only [Option.map] at h
          simp only [Option.some.injEq, Prod.mk.injEq] at h
          obtain ⟨h1, h2⟩ := h
          subst h1
          obtain ⟨hl, p2, p3, p4⟩ := ih mid' (by rw [hrec, h2])
          exact ⟨by simp; omega, p2, p3, p4⟩
        | none => rw [hrec] at h; exact absurd h (by simp)

/-- Properties of a successful anchor match: the remainder is strictly
shorter than the input, the quote groups are quote characters and the
href group is quote-free. -/
theorem tryAnchor_some (l rest : List Char) (g : AGroups)
    (h : tryAnchor l = some (g, rest)) :
    rest.length < l.length ∧ isQuoteCh g.q1 = true ∧ isQuoteCh g.q2 = true ∧
      (∀ x ∈ g.href, isQuoteCh x = false) := by
  rw [tryAnchor.eq_def] at h
  split at h
  next c rest0 =>
    by_cases hcond : ((c == 'a' || c == 'A') && wordBoundary rest0) = true
    · rw [if_pos hcond] at h
      cases hfind : findHrefEq rest0 with
      | some r =>
        obtain ⟨mid, qa, hre, qb, rest3⟩ := r
        rw [hfind] at h
        dsimp only at h
        simp only [Option.some.injEq, Prod.mk.injEq] at h
        obtain ⟨h1, h2⟩ := h
        subst h1 h2
        obtain ⟨hl, p2, p3, p4⟩ := findHrefEq_some rest0 mid hre rest3 qa qb hfind
        exact ⟨by simp; omega, p2, p3, p4⟩
      | none => rw [hfind] at h; dsimp only at h; exact absurd h (by simp)
    · rw [if_neg hcond] at h
      exact absurd h (by simp)
  next => exact absurd h (by simp)

/-- The replacement loop is insensitive to surplus fuel. -/
theorem goRepl_fuel (repl : AGroups → List Char) (f : Nat) :
    ∀ l : List Char, l.length ≤ f → goRepl repl f l = goRepl repl l.length l := by
  induction f using Nat.strong_induction_on with
  | _ f ih =>
    intro l hl
    cases f with
    | zero =>
      have hnil : l = [] := List.eq_nil_of_length_eq_zero (Nat.le_zero.mp hl)
      subst hnil
      rfl
    | succ f =>
      cases l with
      | nil => rfl
      | cons c cs =>
        have hl2 : cs.length ≤ f := by
          simp at hl
          omega
        rw [List.length_cons]
        cases htry : tryAnchor (c :: cs) with
        | some p =>
          obtain ⟨g, rest⟩ := p
          have hlen : rest.length < cs.length + 1 := by
            have := (tryAnchor_some (c :: cs) rest g htry).1
            simpa using this
          rw [goRepl, goRepl, htry]
          dsimp only
          rw [ih f (by omega) rest (by omega), ih cs.length (by omega) rest (by omega)]
        | none =>
          rw [goRepl, goRepl, htry]
          dsimp only
          rw [ih f (by omega) cs (by omega), ih cs.length (by omega) cs (by omega)]

/-- Unfolding of the global replacement at a position where the anchor
pattern matches. -/
theorem globalReplace_cons_some (repl : AGroups → List Char) (c : Char) (cs rest : List Char)
    (g : AGroups) (htry : tryAnchor (c :: cs) = some (g, rest)) :
    globalReplace repl (c :: cs) = repl g ++ globalReplace repl rest := by
  have hlen : rest.length ≤ cs.length := by
    have := (tryAnchor_some (c :: cs) rest g htry).1
    simp at this
    omega
  unfold globalReplace
  rw [List.length_cons, goRepl, htry]
  dsimp only
  rw [goRepl_fuel repl cs.length rest hlen]

/-- Unfolding of the global replacement at a position where the anchor
pattern does not match. -/
theorem globalReplace_cons_none (repl : AGroups → List Char) (c : Char) (cs : List Char)
    (htry : tryAnchor (c :: cs) = none) :
    globalReplace repl (c :: cs) = c :: globalReplace repl cs := by
  unfold globalReplace
  rw [List.length_cons, goRepl, htry]

/-- The global replacement rewrites the leftmost anchor match through
the replacement function and continues after it. -/
theorem firstAnchor_globalReplace (repl : AGroups → List Char) (l pre rest : List Char)
    (g : AGroups) (h : firstAnchor l = some (pre, g, rest)) :
    globalReplace repl l = pre ++ repl g ++ globalReplace repl rest := by
  induction l generalizing pre with
  | nil => rw [show firstAnchor [] = none from rfl] at h; exact absurd h (by simp)
  | cons c cs ih =>
    rw [firstAnchor] at h
    cases htry : tryAnchor (c :: cs) with
    | some p =>
      obtain ⟨gx, restx⟩ := p
      rw [htry] at h
      dsimp only at h
      simp only [Option.some.injEq, Prod.mk.injEq] at h
      obtain ⟨h1, h2, h3⟩ := h
      subst h1 h2 h3
      simpa using globalReplace_cons_some repl c cs restx gx htry
    | none =>
      rw [htry] at h
      dsimp only at h
      cases hrec : firstAnchor cs with
      | some q =>
        obtain ⟨pre', qq⟩ := q
        rw [hrec] at h
        dsimp only [Option.map] at h
        simp only [Option.some.injEq, Prod.mk.injEq] at h
        obtain ⟨h1, h2⟩ := h
        subst h1
        rw [globalReplace_cons_none repl c cs htry, ih pre' (by rw [hrec, h2])]
        simp
      | none => rw [hrec] at h; exact absurd h (by simp)

/-- A leftmost anchor match has quote characters in its quote groups
and no quote characters in its href group. -/
theorem firstAnchor_props (l pre rest : List Char) (g : AGroups)
    (h : firstAnchor l = some (pre, g, rest)) :
    isQuoteCh g.q1 = true ∧ isQuoteCh g.q2 = true ∧ ∀ x ∈ g.href, isQuoteCh x = false := by
  induction l generalizing pre with
  | nil => rw [show firstAnchor [] = none from rfl] at h; exact absurd h (by simp)
  | cons c cs ih =>
    rw [firstAnchor] at h
    cases htry : tryAnchor (c :: cs) with
    | some p =>
      obtain ⟨gx, restx⟩ := p
      rw [htry] at h
      dsimp only at h
      simp only [Option.some.injEq, Prod.mk.injEq] at h
      obtain ⟨h1, h2, h3⟩ := h
      subst h2 h3
      obtain ⟨hlen, p2, p3, p4⟩ := tryAnchor_some (c :: cs) restx gx htry
      exact ⟨p2, p3, p4⟩
    | none =>
      rw [htry] at h
      dsimp only at h
      cases hrec : firstAnchor cs with
      | some q =>
        obtain ⟨pre', qq⟩ := q
        rw [hrec] at h
        dsimp only [Option.map] at h
        simp only [Option.some.injEq, Prod.mk.injEq] at h
        obtain ⟨h1, h2⟩ := h
        exact ih pre' (by rw [hrec, h2])
      | none => rw [hrec] at h; exact absurd h (by simp)

/-! ### Structure of the head-tag matcher -/

/-- A successful split at a greater-than sign decomposes the input,
and the matched part ends in the greater-than sign. -/
theorem splitAtGt_decomp (l : List Char) (a b : List Char)
    (h : splitAtGt l = some (a, b)) :
    l = a ++ b ∧ ∃ a2, a = a2 ++ ['>'] := by
  induction l generalizing a with
  | nil => simp [splitAtGt] at h
  | cons c cs ih =>
    rw [splitAtGt] at h
    by_cases hc : (c == '>') = true
    · rw [if_pos hc] at h
      simp only [Option.some.injEq, Prod.mk.injEq] at h
      obtain ⟨h1, h2⟩ := h
      subst h2
      have hcc : c = '>' := by simpa using hc
      subst hcc h1
      exact ⟨rfl, [], rfl⟩
    · rw [if_neg hc] at h
      cases hrec : splitAtGt cs with
      | some p =>
        obtain ⟨a0, b0⟩ := p
        rw [hrec] at h
        dsimp only [Option.map] at h
        simp only [Option.some.injEq, Prod.mk.injEq] at h
        obtain ⟨h1, h2⟩ := h
        subst h2
        obtain ⟨hd, a2, ha2⟩ := ih a0 hrec
        subst h1
        refine ⟨by rw [List.cons_append, ← hd], c :: a2, by rw [ha2, List.cons_append]⟩
      | none => rw [hrec] at h; exact absurd h (by simp)

/-- A successful head-tag attempt decomposes the input, the input
starts with the case-insensitive characters of "<head", and the match
ends in a greater-than sign. -/
theorem tryHeadAt_some (l m r : List Char) (h : tryHeadAt l = some (m, r)) :
    l = m ++ r ∧ ciHasPrefixL ['<', 'h', 'e', 'a', 'd'] l = true ∧
      ∃ m2, m = m2 ++ ['>'] := by
  unfold tryHeadAt at h
  by_cases hp : ciHasPrefixL ['<', 'h', 'e', 'a', 'd'] l = true
  · rw [if_pos hp] at h
    cases hgt : splitAtGt (l.drop 5) with
    | some p =>
      obtain ⟨a, b⟩ := p
      rw [hgt] at h
      dsimp only at h
      simp only [Option.some.injEq, Prod.mk.injEq] at h
      obtain ⟨h1, h2⟩ := h
      subst h1 h2
      obtain ⟨hd, a2, ha2⟩ := splitAtGt_decomp (l.drop 5) a b hgt
      refine ⟨?_, hp, List.take 5 l ++ a2, by rw [ha2, List.append_assoc]⟩
      rw [List.append_assoc, ← hd, List.take_append_drop]
    | none => rw [hgt] at h; exact absurd h (by simp)
  · rw [if_neg hp] at h
    exact absurd h (by simp)

/-- A successful leftmost head-tag match decomposes the document, the
matched text and remainder start with the case-insensitive characters
of "<head", and the match ends in a greater-than sign. -/
theorem headSplit_decomp (l p m r : List Char) (h : headSplit l = some (p, m, r)) :
    l = p ++ m ++ r ∧ ciHasPrefixL ['<', 'h', 'e', 'a', 'd'] (m ++ r) = true ∧
      ∃ m2, m = m2 ++ ['>'] := by
  induction l generalizing p with
  | nil => rw [show headSplit [] = none from rfl] at h; exact absurd h (by simp)
  | cons c cs ih =>
    rw [headSplit] at h
    cases htry : tryHeadAt (c :: cs) with
    | some q =>
      obtain ⟨mx, rx⟩ := q
      rw [htry] at h
      dsimp only at h
      simp only [Option.some.injEq, Prod.mk.injEq] at h
      obtain ⟨h1, h2, h3⟩ := h
      subst h1 h2 h3
      obtain ⟨hd, hp, hgt⟩ := tryHeadAt_some (c :: cs) _ _ htry
      exact ⟨by simpa using hd, by rw [← hd]; exact hp, hgt⟩
    | none =>
      rw [htry] at h
      dsimp only at h
      cases hrec : headSplit cs with
      | some q =>
        obtain ⟨p0, q0⟩ := q
        rw [hrec] at h
        dsimp only [Option.map] at h
        simp only [Option.some.injEq, Prod.mk.injEq] at h
        obtain ⟨h1, h2⟩ := h
        subst h1
        obtain ⟨hd, hp, hgt⟩ := ih p0 (by rw [hrec, h2])
        exact ⟨by rw [hd]; simp, hp, hgt⟩
      | none => rw [hrec] at h; exact absurd h (by simp)

/-! ### Header lookup lemmas -/

/-- A filter that only removes entries failing a predicate implied by
the search predicate does not change the result of the search. -/
theorem find?_filter_of_imp {α : Type} (l : List α) (p q : α → Bool)
    (h : ∀ x, p x = true → q x = true) : (l.filter q).find? p = l.find? p := by
  induction l with
  | nil => rfl
  | cons a l ih =>
    by_cases hpa : p a = true
    · have hqa := h a hpa
      rw [List.filter_cons_of_pos hqa, List.find?_cons_of_pos _ hpa, List.find?_cons_of_pos _ hpa]
    · have hpa2 : p a = false := by
        simp at hpa
        simp [hpa]
      by_cases hqa : q a = true
      · rw [List.filter_cons_of_pos hqa, List.find?_cons_of_neg _ (by simp [hpa2]),
          List.find?_cons_of_neg _ (by simp [hpa2]), ih]
      · rw [List.filter_cons_of_neg (by simpa using hqa),
          List.find?_cons_of_neg _ (by simp [hpa2]), ih]

/-- Effect of the Node setHeader on a case-insensitive lookup. -/
theorem ciLookup_setHeader (hs : List (String × String)) (k v b : String) :
    ciLookup (setHeader hs k v) b =
      if lowerStr k = lowerStr b then some v else ciLookup hs b := by
  unfold ciLookup setHeader
  rw [List.find?_append]
  by_cases he : lowerStr k = lowerStr b
  · rw [if_pos he]
    have hnone : (hs.filter (fun p => !(lowerStr p.1 == lowerStr k))).find?
        (fun p => lowerStr p.1 == lowerStr b) = none := by
      rw [List.find?_eq_none]
      intro x hx
      have hq := (List.mem_filter.mp hx).2
      simp only [Bool.not_eq_true', beq_eq_false_iff_ne, ne_eq] at hq
      simp only [beq_iff_eq]
      rw [← he]
      exact hq
    rw [hnone]
    have hone : List.find? (fun p => lowerStr p.1 == lowerStr b) [(k, v)] = some (k, v) := by
      rw [List.find?_cons_of_pos _ (by simp [he])]
    rw [hone]
    rfl
  · rw [if_neg he]
    have hone : List.find? (fun p => lowerStr p.1 == lowerStr b) [(k, v)] = none := by
      rw [List.find?_eq_none]
      intro x hx
      simp at hx
      subst hx
      simp [he]
    rw [hone, Option.or_none]
    rw [find?_filter_of_imp hs _ _ ?_]
    intro x hpx
    simp only [beq_iff_eq] at hpx
    simp only [Bool.not_eq_true', beq_eq_false_iff_ne, ne_eq]
    rw [hpx]
    exact fun hc => he hc.symm

/-- Effect of the Node removeHeader on a case-insensitive lookup. -/
theorem ciLookup_removeHeader (hs : List (String × String)) (k b : String) :
    ciLookup (removeHeader hs k) b =
      if lowerStr k = lowerStr b then none else ciLookup hs b := by
  unfold ciLookup removeHeader
  by_cases he : lowerStr k = lowerStr b
  · rw [if_pos he]
    rw [show (hs.filter (fun p => !(lowerStr p.1 == lowerStr k))).find?
        (fun p => lowerStr p.1 == lowerStr b) = none from ?_]
    · rfl
    · rw [List.find?_eq_none]
      intro x hx
      have hq := (List.mem_filter.mp hx).2
      simp only [Bool.not_eq_true', beq_eq_false_iff_ne, ne_eq] at hq
      simp only [beq_iff_eq]
      rw [← he]
      exact hq
  · rw [if_neg he]
    rw [find?_filter_of_imp hs _ _ ?_]
    intro x hpx
    simp only [beq_iff_eq] at hpx
    simp only [Bool.not_eq_true', beq_eq_false_iff_ne, ne_eq]
    rw [hpx]
    exact fun hc => he hc.symm

/-- The forwarding fold of the serverless handler never installs a
blocked header name. -/
theorem ciLookup_fwd_none (ups : List (String × String)) (b : String)
    (hb : isBlocked (lowerStr b) = true) :
    ciLookup (ups.foldl
      (fun acc kv => if isBlocked (lowerStr kv.1) then acc else setHeader acc kv.1 kv.2) []) b
      = none := by
  suffices h : ∀ acc, ciLookup acc b = none →
      ciLookup (ups.foldl
        (fun acc kv => if isBlocked (lowerStr kv.1) then acc else setHeader acc kv.1 kv.2) acc) b
        = none by
    exact h [] rfl
  induction ups with
  | nil => intro acc hacc; exact hacc
  | cons kv rest ih =>
    intro acc hacc
    rw [List.foldl_cons]
    by_cases hblk : isBlocked (lowerStr kv.1) = true
    · rw [if_pos hblk]
      exact ih acc hacc
    · rw [if_neg hblk]
      apply ih
      rw [ciLookup_setHeader]
      rw [if_neg ?_]
      · exact hacc
      · intro hc
        rw [hc] at hblk
        exact hblk hb

/-! ### Record header lemmas for the middleware -/

/-- Setting a key absent from the record appends the entry. -/
theorem recSet_append (r : List (String × String)) (k v : String)
    (hn : r.any (fun p => p.1 == k) = false) : recSet r k v = r ++ [(k, v)] := by
  unfold recSet
  rw [if_neg (by simp [hn])]

/-- Lookup of a lowercase key after assigning it in a record whose
keys are lowercase finds the assigned value. -/
theorem ciLookup_recSet_self (r : List (String × String)) (k v : String)
    (hA : ∀ e ∈ r, lowerStr e.1 = e.1) (hk : lowerStr k = k) :
    ciLookup (recSet r k v) k = some v := by
  unfold recSet
  by_cases hany : r.any (fun p => p.1 == k) = true
  · rw [if_pos hany]
    induction r with
    | nil => simp at hany
    | cons e r ih =>
      by_cases he : (e.1 == k) = true
      · unfold ciLookup
        rw [List.map_cons, if_pos he, List.find?_cons_of_pos _ (by simp)]
        rfl
      · unfold ciLookup
        have hpe : ¬ (lowerStr e.1 == lowerStr k) = true := by
          simp only [beq_iff_eq]
          rw [hA e (by simp), hk]
          simpa using he
        rw [List.map_cons, if_neg he, List.find?_cons_of_neg _ (by exact hpe)]
        have hanyr : r.any (fun p => p.1 == k) = true := by
          simp only [List.any_cons, he] at hany
          simpa using hany
        exact ih (fun x hx => hA x (by simp [hx])) hanyr
  · rw [if_neg hany]
    unfold ciLookup
    rw [List.find?_append]
    have hnone : r.find? (fun p => lowerStr p.1 == lowerStr k) = none := by
      rw [List.find?_eq_none]
      intro x hx
      simp only [beq_iff_eq]
      rw [hA x hx, hk]
      intro hc
      subst hc
      simp only [Bool.not_eq_true] at hany
      rw [List.any_eq_false] at hany
      exact absurd (by simp) (hany x hx)
    rw [hnone]
    rw [List.find?_cons_of_pos _ (by simp)]
    rfl

/-- Replacing the entries of one exact key in a record does not change
the lookup of a key with a different lowercase form. -/
theorem ciLookup_map_other (r : List (String × String)) (k v b : String)
    (hne : ¬ lowerStr k = lowerStr b) :
    Option.map (fun p => p.2) (List.find? (fun p => lowerStr p.1 == lowerStr b)
      (r.map (fun p => if p.1 == k then (k, v) else p)))
    = Option.map (fun p => p.2) (List.find? (fun p => lowerStr p.1 == lowerStr b) r) := by
  induction r with
  | nil => rfl
  | cons e r ih =>
    rw [List.map_cons]
    by_cases he : (e.1 == k) = true
    · have hek : e.1 = k := by simpa using he
      have hpe : ¬ (lowerStr k == lowerStr b) = true := by simpa using hne
      have hpe2 : ¬ (lowerStr e.1 == lowerStr b) = true := by
        rw [hek]
        exact hpe
      rw [if_pos he, List.find?_cons_of_neg _ (by exact hpe),
        List.find?_cons_of_neg _ (by exact hpe2)]
      exact ih
    · rw [if_neg he]
      by_cases hpe : (lowerStr e.1 == lowerStr b) = true
      · rw [List.find?_cons_of_pos _ (by exact hpe), List.find?_cons_of_pos _ (by exact hpe)]
      · rw [List.find?_cons_of_neg _ (by exact hpe), List.find?_cons_of_neg _ (by exact hpe)]
        exact ih

/-- Assignment of one key does not change the lookup of a key with a
different lowercase form. -/
theorem ciLookup_recSet_other (r : List (String × String)) (k v b : String)
    (hne : ¬ lowerStr k = lowerStr b) :
    ciLookup (recSet r k v) b = ciLookup r b := by
  unfold recSet
  by_cases hany : r.any (fun p => p.1 == k) = true
  · rw [if_pos hany]
    exact ciLookup_map_other r k v b hne
  · rw [if_neg hany]
    unfold ciLookup
    rw [List.find?_append]
    rw [show List.find? (fun p => lowerStr p.1 == lowerStr b) [(k, v)] = none from ?_]
    · rw [Option.or_none]
    · rw [List.find?_eq_none]
      intro x hx
      simp at hx
      subst hx
      simpa using hne

/-- Deleting one exact key does not change the lookup of a key with a
different lowercase form. -/
theorem ciLookup_recDel_other (r : List (String × String)) (k b : String)
    (hk : lowerStr k = k) (hne : ¬ lowerStr k = lowerStr b) :
    ciLookup (recDel r k) b = ciLookup r b := by
  unfold ciLookup recDel
  rw [find?_filter_of_imp r _ _ ?_]
  intro x hpx
  simp only [beq_iff_eq] at hpx
  simp only [Bool.not_eq_true', beq_eq_false_iff_ne, ne_eq]
  intro hc
  subst hc
  exact hne (by rw [hk] at hpx ⊢; exact hpx)

/-- Applying writeHead to a record whose keys have pairwise distinct
lowercase forms emits exactly the record entries. -/
theorem writeHead_id (r : List (String × String))
    (hKU : (r.map (fun p => lowerStr p.1)).Nodup) : writeHeadHeaders r = r := by
  suffices h : ∀ acc : List (String × String),
      (∀ e ∈ r, ∀ a ∈ acc, ¬ lowerStr e.1 = lowerStr a.1) →
      r.foldl (fun acc kv => setHeader acc kv.1 kv.2) acc = acc ++ r by
    simpa using h [] (by simp)
  induction r with
  | nil => intro acc _; simp
  | cons e r ih =>
    intro acc hdisj
    rw [List.foldl_cons]
    simp only [List.map_cons, List.nodup_cons] at hKU
    have hfil : acc.filter (fun p => !(lowerStr p.1 == lowerStr e.1)) = acc := by
      rw [List.filter_eq_self]
      intro a ha
      simp only [Bool.not_eq_eq_eq_not, Bool.not_true, beq_eq_false_iff_ne, ne_eq]
      exact fun hc => hdisj e (by simp) a ha hc.symm
    have hset : setHeader acc e.1 e.2 = acc ++ [e] := by
      unfold setHeader
      rw [hfil, Prod.mk.eta]
    have hd2 : ∀ x ∈ r, ∀ a ∈ acc ++ [e], ¬ lowerStr x.1 = lowerStr a.1 := by
      intro x hx a ha
      rcases List.mem_append.mp ha with h1 | h2
      · exact hdisj x (by simp [hx]) a h1
      · have hae : a = e := by simpa using h2
        subst hae
        intro hc
        exact hKU.1 (by
          rw [← hc]
          exact List.mem_map.mpr ⟨x, hx, rfl⟩)
    rw [hset, ih hKU.2 (acc ++ [e]) hd2]
    simp

/-- The record assignment preserves lowercase keys and distinct keys
when the new key is lowercase. -/
theorem recSet_preserves (r : List (String × String)) (k v : String)
    (hA : ∀ e ∈ r, lowerStr e.1 = e.1) (hN : (r.map (fun p => p.1)).Nodup)
    (hk : lowerStr k = k) :
    (∀ e ∈ recSet r k v, lowerStr e.1 = e.1) ∧
      ((recSet r k v).map (fun p => p.1)).Nodup := by
  unfold recSet
  by_cases hany : r.any (fun p => p.1 == k) = true
  · rw [if_pos hany]
    constructor
    · intro e he
      obtain ⟨x, hx, hfx⟩ := List.mem_map.mp he
      by_cases hxk : (x.1 == k) = true
      · rw [if_pos hxk] at hfx
        rw [← hfx]
        exact hk
      · rw [if_neg hxk] at hfx
        rw [← hfx]
        exact hA x hx
    · have hkeys : (r.map (fun p => if p.1 == k then (k, v) else p)).map (fun p => p.1)
          = r.map (fun p => p.1) := by
        rw [List.map_map]
        apply List.map_congr_left
        intro x hx
        simp only [Function.comp_apply]
        by_cases hxk : (x.1 == k) = true
        · rw [if_pos hxk]
          exact (show x.1 = k by simpa using hxk).symm
        · rw [if_neg hxk]
      rw [hkeys]
      exact hN
  · rw [if_neg hany]
    constructor
    · intro e he
      rcases List.mem_append.mp he with h1 | h2
      · exact hA e h1
      · have he2 : e = (k, v) := by simpa using h2
        subst he2
        exact hk
    · rw [List.map_append]
      rw [List.nodup_append]
      refine ⟨hN, by simp, ?_⟩
      intro x hx hy
      simp only [List.map_cons, List.map_nil, List.mem_singleton] at hy
      subst hy
      simp only [Bool.not_eq_true] at hany
      rw [List.any_eq_false] at hany
      obtain ⟨p, hp, hpk⟩ := List.mem_map.mp hx
      exact absurd (by simp [hpk]) (hany p hp)

/-- The record deletion preserves lowercase keys and distinct keys. -/
theorem recDel_preserves (r : List (String × String)) (k : String)
    (hA : ∀ e ∈ r, lowerStr e.1 = e.1) (hN : (r.map (fun p => p.1)).Nodup) :
    (∀ e ∈ recDel r k, lowerStr e.1 = e.1) ∧
      ((recDel r k).map (fun p => p.1)).Nodup := by
  unfold recDel
  constructor
  · intro e he
    exact hA e (List.mem_of_mem_filter he)
  · exact List.Nodup.sublist (List.Sublist.map _ (List.filter_sublist r)) hN

/-- With pairwise distinct upstream header names, the forwarding fold
of the middleware is the blocked-name filter of the upstream list. -/
theorem fold_recStep_filter (ups : List (String × String))
    (hN : (ups.map (fun p => p.1)).Nodup) :
    ups.foldl (fun acc kv => if isBlocked (lowerStr kv.1) then acc else recSet acc kv.1 kv.2) []
      = ups.filter (fun kv => !(isBlocked (lowerStr kv.1))) := by
  suffices h : ∀ acc : List (String × String),
      (∀ e ∈ ups, ∀ a ∈ acc, ¬ e.1 = a.1) →
      (ups.map (fun p => p.1)).Nodup →
      ups.foldl (fun acc kv => if isBlocked (lowerStr kv.1) then acc else recSet acc kv.1 kv.2) acc
        = acc ++ ups.filter (fun kv => !(isBlocked (lowerStr kv.1))) by
    simpa using h [] (by simp) hN
  clear hN
  induction ups with
  | nil => intro acc _ _; simp
  | cons e r ih =>
    intro acc hdisj hN
    rw [List.foldl_cons]
    simp only [List.map_cons, List.nodup_cons] at hN
    by_cases hblk : isBlocked (lowerStr e.1) = true
    · rw [if_pos hblk, List.filter_cons_of_neg (by simp [hblk])]
      exact ih acc (fun x hx a ha => hdisj x (by simp [hx]) a ha) hN.2
    · rw [if_neg hblk, List.filter_cons_of_pos (by simp [hblk])]
      have hany : acc.any (fun p => p.1 == e.1) = false := by
        rw [List.any_eq_false]
        intro a ha
        show ¬ (a.1 == e.1) = true
        simp only [beq_iff_eq]
        exact fun hc => hdisj e (by simp) a ha hc.symm
      have hset : recSet acc e.1 e.2 = acc ++ [e] := by
        rw [recSet_append _ _ _ hany, Prod.mk.eta]
      have hd2 : ∀ x ∈ r, ∀ a ∈ acc ++ [e], ¬ x.1 = a.1 := by
        intro x hx a ha
        rcases List.mem_append.mp ha with h1 | h2
        · exact hdisj x (by simp [hx]) a h1
        · have hae : a = e := by simpa using h2
          subst hae
          intro hc
          exact hN.1 (by
            rw [← hc]
            exact List.mem_map.mpr ⟨x, hx, rfl⟩)
      rw [hset, ih (acc ++ [e]) hd2 hN.2]
      simp

/-! ### Unfolding the anchor replacement callback -/

/-- The callback keeps the match verbatim for skipped hrefs. -/
theorem anchorRepl_skip (o p pb r : String) (g : AGroups)
    (h : skipHref g.href = true) : anchorRepl o p pb r g = wholeMatch g := by
  unfold anchorRepl
  rw [if_pos h]

/-- The callback keeps the match verbatim when resolution fails. -/
theorem anchorRepl_noresolve (o p pb r : String) (g : AGroups)
    (h1 : skipHref g.href = false)
    (h2 : jsURL (String.mk g.href) (o ++ p) = none) :
    anchorRepl o p pb r g = wholeMatch g := by
  unfold anchorRepl
  rw [if_neg (by simp [h1]), h2]

/-- The callback keeps the match verbatim for cross-origin targets. -/
theorem anchorRepl_crossorigin (o p pb r : String) (g : AGroups) (abs : URLRec)
    (h1 : skipHref g.href = false)
    (h2 : jsURL (String.mk g.href) (o ++ p) = some abs)
    (h3 : ¬ urlOrigin abs = o) :
    anchorRepl o p pb r g = wholeMatch g := by
  unfold anchorRepl
  rw [if_neg (by simp [h1]), h2]
  dsimp only
  rw [if_neg (by simp [h3])]

/-- The callback rewrites same-origin targets into a relay link. -/
theorem anchorRepl_rewrite (o p pb r : String) (g : AGroups) (abs : URLRec)
    (h1 : skipHref g.href = false)
    (h2 : jsURL (String.mk g.href) (o ++ p) = some abs)
    (h3 : urlOrigin abs = o) :
    anchorRepl o p pb r g
      = g.g1 ++ [g.q1]
        ++ (pb ++ r ++ "?url=" ++ encodeURIComponent (urlToString abs)).data ++ [g.q2] := by
  unfold anchorRepl
  rw [if_neg (by simp [h1]), h2]
  dsimp only
  rw [if_pos (by simp [h3])]

/-! ### Claim theorems on the HTML transformations -/

/-- C4 (amended): the rewriter inserts a single base element
immediately after the first case-insensitive match of the pattern made
of "<head", a run of non-greater-than characters and a closing
greater-than sign; this matcher tolerates attributes on the tag but
also matches tags whose names merely begin with the letters of head,
such as a header element.  When the document has no match of this
pattern, it is returned unchanged and this is not a failure. -/
theorem c4_base_injection_amended (origin html : String) :
    (∀ p m r : List Char, headSplit html.data = some (p, m, r) →
      html.data = p ++ m ++ r
      ∧ injectBase origin html = String.mk (p ++ m ++ (baseTag origin).data ++ r)
      ∧ ciHasPrefixL ['<', 'h', 'e', 'a', 'd'] (m ++ r) = true
      ∧ ∃ m2, m = m2 ++ ['>'])
    ∧ (headSplit html.data = none → injectBase origin html = html) := by
  constructor
  · intro p m r h
    obtain ⟨hd, hp, hgt⟩ := headSplit_decomp html.data p m r h
    refine ⟨hd, ?_, hp, hgt⟩
    unfold injectBase
    rw [h]
  · intro h
    unfold injectBase
    rw [h]

/-- Witness for the amended C4 theorem at a concrete document. -/
theorem c4_base_injection_amended_witness :
    "<html><head></head>".data = "<html>".data ++ "<head>".data ++ "</head>".data
    ∧ injectBase "https://e.com" "<html><head></head>"
        = String.mk ("<html>".data ++ "<head>".data
            ++ (baseTag "https://e.com").data ++ "</head>".data)
    ∧ ciHasPrefixL ['<', 'h', 'e', 'a', 'd'] ("<head>".data ++ "</head>".data) = true
    ∧ ∃ m2, "<head>".data = m2 ++ ['>'] :=
  (c4_base_injection_amended "https://e.com" "<html><head></head>").1
    "<html>".data "<head>".data "</head>".data (by decide)

/-- C4 (counterexample): a document with no head tag at all, but with
a header element, still receives an injected base element, because the
head-tag pattern also matches the opening header tag.  This refutes
the part of the claim stating that a document with no head tag is
returned with no base tag inserted. -/
theorem c4_base_injection_counterexample :
    containsSubL "<head>".data "<header id=1>x</header>".data = false
    ∧ containsSubL "<head ".data "<header id=1>x</header>".data = false
    ∧ containsSubL "<head/".data "<header id=1>x</header>".data = false
    ∧ injectBase "https://e.com" "<header id=1>x</header>" ≠ "<header id=1>x</header>"
    ∧ injectBase "https://e.com" "<header id=1>x</header>"
        = "<header id=1>" ++ baseTag "https://e.com" ++ "x</header>" := by
  refine ⟨by decide, by decide, by decide, by decide, by decide⟩

/-- C6: an anchor whose href value is empty or begins,
case-insensitively, with a hash, javascript colon, mailto colon or tel
colon is emitted byte-identically by the link-rewrite transform: the
leftmost such anchor match is reproduced verbatim and rewriting
continues after it. -/
theorem c6_skip_hrefs_preserved (o p pb r : String) (doc pre rest : List Char) (g : AGroups)
    (h1 : firstAnchor doc = some (pre, g, rest))
    (h2 : skipHref g.href = true) :
    globalReplace (anchorRepl o p pb r) doc
      = pre ++ wholeMatch g ++ globalReplace (anchorRepl o p pb r) rest := by
  rw [firstAnchor_globalReplace _ doc pre rest g h1, anchorRepl_skip o p pb r g h2]

/-- Witness for C6 at a concrete document with a hash anchor. -/
theorem c6_skip_hrefs_preserved_witness :
    globalReplace (anchorRepl "https://e.com" "/" "https://relay.host" "/api/fetch-site")
        "<a href=\"#top\">x</a>".data
      = [] ++ wholeMatch ⟨"<a href=".data, '"', "#top".data, '"'⟩
        ++ globalReplace (anchorRepl "https://e.com" "/" "https://relay.host" "/api/fetch-site")
            ">x</a>".data :=
  c6_skip_hrefs_preserved "https://e.com" "/" "https://relay.host" "/api/fetch-site"
    "<a href=\"#top\">x</a>".data [] ">x</a>".data
    ⟨"<a href=".data, '"', "#top".data, '"'⟩ (by decide) (by decide)

/-- C5: when a non-skipped anchor href resolves, against the upstream
origin and path, to an absolute URL whose origin equals the upstream
origin, the transform replaces the href value by the relay base
followed by the relay route and the percent-encoded absolute URL; the
new value starts with the relay base and route, and percent-decoding
the url query parameter restores exactly the resolved absolute URL
(whose serialisation is ASCII).  Resolution is only performed for
hrefs that do not meet the skip condition, per the contract of the
rewriter. -/
theorem c5_same_origin_rewrite (o p pb r : String) (doc pre rest : List Char)
    (g : AGroups) (abs : URLRec)
    (h1 : firstAnchor doc = some (pre, g, rest))
    (h2 : skipHref g.href = false)
    (h3 : jsURL (String.mk g.href) (o ++ p) = some abs)
    (h4 : urlOrigin abs = o)
    (h5 : allAscii (urlToString abs).data = true) :
    globalReplace (anchorRepl o p pb r) doc
      = pre ++ g.g1 ++ [g.q1]
        ++ (pb ++ r ++ "?url=" ++ encodeURIComponent (urlToString abs)).data
        ++ [g.q2] ++ globalReplace (anchorRepl o p pb r) rest
    ∧ hasPrefL (pb ++ r).data
        ((pb ++ r ++ "?url=" ++ encodeURIComponent (urlToString abs)).data) = true
    ∧ decodeURIComponent (encodeURIComponent (urlToString abs)) = urlToString abs := by
  refine ⟨?_, ?_, decode_encode_ascii _ h5⟩
  · rw [firstAnchor_globalReplace _ doc pre rest g h1,
      anchorRepl_rewrite o p pb r g abs h2 h3 h4]
    simp only [List.append_assoc]
  · rw [show pb ++ r ++ "?url=" ++ encodeURIComponent (urlToString abs)
        = (pb ++ r) ++ ("?url=" ++ encodeURIComponent (urlToString abs)) from by
      rw [String.append_assoc]]
    rw [String.data_append]
    exact hasPrefL_append _ _

/-- Witness for C5 at the documented end-to-end example: the about
link of a page on the example origin. -/
theorem c5_same_origin_rewrite_witness :
    globalReplace
        (anchorRepl "https://e.com" "/page" "https://relay.host" "/api/fetch-site")
        "<a href=\"/about\">x</a>".data
      = [] ++ "<a href=".data ++ ['"']
        ++ ("https://relay.host" ++ "/api/fetch-site" ++ "?url="
            ++ encodeURIComponent (urlToString ⟨"https", true, "e.com", "/about", "", ""⟩)).data
        ++ ['"']
        ++ globalReplace
            (anchorRepl "https://e.com" "/page" "https://relay.host" "/api/fetch-site")
            ">x</a>".data
    ∧ hasPrefL ("https://relay.host" ++ "/api/fetch-site").data
        (("https://relay.host" ++ "/api/fetch-site" ++ "?url="
          ++ encodeURIComponent (urlToString ⟨"https", true, "e.com", "/about", "", ""⟩)).data)
        = true
    ∧ decodeURIComponent
        (encodeURIComponent (urlToString ⟨"https", true, "e.com", "/about", "", ""⟩))
      = urlToString ⟨"https", true, "e.com", "/about", "", ""⟩ :=
  c5_same_origin_rewrite "https://e.com" "/page" "https://relay.host" "/api/fetch-site"
    "<a href=\"/about\">x</a>".data [] ">x</a>".data
    ⟨"<a href=".data, '"', "/about".data, '"'⟩
    ⟨"https", true, "e.com", "/about", "", ""⟩
    (by decide) (by decide) (by decide) (by decide) (by decide)

/-- C9: provided an anchor href parses as an absolute URL whose origin
differs from the upstream origin, the transform emits the anchor
byte-identically.  Rewritten relay links are absolute URLs on the
relay host, so when the relay base origin differs from the upstream
origin, re-running the transform on its own output leaves those links
unchanged. -/
theorem c9_rewrite_stable_on_relay_links (o p pb r : String) (doc pre rest : List Char)
    (g : AGroups) (u : URLRec)
    (h1 : firstAnchor doc = some (pre, g, rest))
    (h2 : skipHref g.href = false)
    (h3 : parseJsURL (String.mk g.href) = some u)
    (h4 : ¬ urlOrigin u = o) :
    globalReplace (anchorRepl o p pb r) doc
      = pre ++ wholeMatch g ++ globalReplace (anchorRepl o p pb r) rest := by
  have hj : jsURL (String.mk g.href) (o ++ p) = some u := by
    unfold jsURL
    rw [h3]
  rw [firstAnchor_globalReplace _ doc pre rest g h1,
    anchorRepl_crossorigin o p pb r g u h2 hj h4]

/-- Witness for C9: a link already rewritten to the relay host is left
unchanged when the transform runs again. -/
theorem c9_rewrite_stable_on_relay_links_witness :
    globalReplace (anchorRepl "https://e.com" "/page" "https://relay.host" "/api/fetch-site")
        ("<a href=\"https://relay.host/api/fetch-site?url=https%3A%2F%2Fe.com%2Fabout\">x</a>".data)
      = [] ++ wholeMatch ⟨"<a href=".data, '"',
            "https://relay.host/api/fetch-site?url=https%3A%2F%2Fe.com%2Fabout".data, '"'⟩
        ++ globalReplace
            (anchorRepl "https://e.com" "/page" "https://relay.host" "/api/fetch-site")
            ">x</a>".data :=
  c9_rewrite_stable_on_relay_links "https://e.com" "/page" "https://relay.host"
    "/api/fetch-site"
    ("<a href=\"https://relay.host/api/fetch-site?url=https%3A%2F%2Fe.com%2Fabout\">x</a>".data)
    [] ">x</a>".data
    ⟨"<a href=".data, '"',
      "https://relay.host/api/fetch-site?url=https%3A%2F%2Fe.com%2Fabout".data, '"'⟩
    ⟨"https", true, "relay.host", "/api/fetch-site", "?url=https%3A%2F%2Fe.com%2Fabout", ""⟩
    (by decide) (by decide) (by decide) (by decide)

/-- C10 (amended): the anchor pattern only ever captures href values
that follow an opening quote, contain no quote character of either
kind, and are terminated by a quote of either kind; the closing quote
need not match the opening one, so an anchor whose doubly quoted value
contains a quote of the other kind can have the quote-free head of its
value captured and rewritten rather than being left byte-identical. -/
theorem c10_quoted_values_amended (doc pre rest : List Char) (g : AGroups)
    (h : firstAnchor doc = some (pre, g, rest)) :
    isQuoteCh g.q1 = true ∧ isQuoteCh g.q2 = true ∧
      ∀ x ∈ g.href, isQuoteCh x = false :=
  firstAnchor_props doc pre rest g h

/-- Witness for the amended C10 theorem at a concrete anchor. -/
theorem c10_quoted_values_amended_witness :
    isQuoteCh '"' = true ∧ isQuoteCh '"' = true ∧
      ∀ x ∈ "/about".data, isQuoteCh x = false :=
  c10_quoted_values_amended "<a href=\"/about\">x</a>".data [] ">x</a>".data
    ⟨"<a href=".data, '"', "/about".data, '"'⟩ (by decide)

/-- C10 (counterexample): an anchor whose double-quoted href value
contains a single quote is not left byte-identical: the pattern
matches the quote-free head of the value (closing on the single
quote), resolves it and rewrites it, so the anchor text changes.  This
refutes the part of the claim stating that a quoted value containing a
quote character of either kind leaves the anchor untouched. -/
theorem c10_quoted_values_counterexample :
    globalReplace (anchorRepl "https://e.com" "/p" "https://relay" "/api/fetch-site")
        (("<a href=\"a" ++ sqStr ++ "b\">x</a>").data)
      = ("<a href=\"https://relay/api/fetch-site?url=https%3A%2F%2Fe.com%2Fa"
          ++ sqStr ++ "b\">x</a>").data
    ∧ globalReplace (anchorRepl "https://e.com" "/p" "https://relay" "/api/fetch-site")
        (("<a href=\"a" ++ sqStr ++ "b\">x</a>").data)
      ≠ ("<a href=\"a" ++ sqStr ++ "b\">x</a>").data := by
  refine ⟨by decide, by decide⟩

/-- C8 (amended): the serverless handler and the dev-server middleware
do not differ in whether same-origin anchor rewriting is performed:
both transforms rewrite a resolving same-origin anchor, and the
rewritten values differ only in the relay route (the api fetch-site
route against the bare fetch-site route) and in the relay base string
each deployment supplies. -/
theorem c8_variants_both_rewrite (o p pb : String) (doc pre rest : List Char)
    (g : AGroups) (abs : URLRec)
    (h1 : firstAnchor doc = some (pre, g, rest))
    (h2 : skipHref g.href = false)
    (h3 : jsURL (String.mk g.href) (o ++ p) = some abs)
    (h4 : urlOrigin abs = o) :
    globalReplace (anchorRepl o p pb "/api/fetch-site") doc
      = pre ++ g.g1 ++ [g.q1]
        ++ (pb ++ "/api/fetch-site" ++ "?url=" ++ encodeURIComponent (urlToString abs)).data
        ++ [g.q2] ++ globalReplace (anchorRepl o p pb "/api/fetch-site") rest
    ∧ globalReplace (anchorRepl o p pb "/fetch-site") doc
      = pre ++ g.g1 ++ [g.q1]
        ++ (pb ++ "/fetch-site" ++ "?url=" ++ encodeURIComponent (urlToString abs)).data
        ++ [g.q2] ++ globalReplace (anchorRepl o p pb "/fetch-site") rest := by
  constructor
  · rw [firstAnchor_globalReplace _ doc pre rest g h1,
      anchorRepl_rewrite o p pb "/api/fetch-site" g abs h2 h3 h4]
    simp only [List.append_assoc]
  · rw [firstAnchor_globalReplace _ doc pre rest g h1,
      anchorRepl_rewrite o p pb "/fetch-site" g abs h2 h3 h4]
    simp only [List.append_assoc]

/-- Witness for the amended C8 theorem at a concrete anchor. -/
theorem c8_variants_both_rewrite_witness :
    globalReplace (anchorRepl "https://e.com" "/page" "https://relay.host" "/api/fetch-site")
        "<a href=\"/about\">x</a>".data
      = [] ++ "<a href=".data ++ ['"']
        ++ ("https://relay.host" ++ "/api/fetch-site" ++ "?url="
            ++ encodeURIComponent (urlToString ⟨"https", true, "e.com", "/about", "", ""⟩)).data
        ++ ['"']
        ++ globalReplace
            (anchorRepl "https://e.com" "/page" "https://relay.host" "/api/fetch-site")
            ">x</a>".data
    ∧ globalReplace (anchorRepl "https://e.com" "/page" "https://relay.host" "/fetch-site")
        "<a href=\"/about\">x</a>".data
      = [] ++ "<a href=".data ++ ['"']
        ++ ("https://relay.host" ++ "/fetch-site" ++ "?url="
            ++ encodeURIComponent (urlToString ⟨"https", true, "e.com", "/about", "", ""⟩)).data
        ++ ['"']
        ++ globalReplace
            (anchorRepl "https://e.com" "/page" "https://relay.host" "/fetch-site")
            ">x</a>".data :=
  c8_variants_both_rewrite "https://e.com" "/page" "https://relay.host"
    "<a href=\"/about\">x</a>".data [] ">x</a>".data
    ⟨"<a href=".data, '"', "/about".data, '"'⟩
    ⟨"https", true, "e.com", "/about", "", ""⟩
    (by decide) (by decide) (by decide) (by decide)

/-- C8 (counterexample): on the same upstream HTML page, both
deployment variants emit a body containing a rewritten relay link (the
serverless handler under the api fetch-site route and the middleware
under the bare fetch-site route), while the upstream body contains no
such link.  This refutes the claim that one of the two variants only
injects the base tag and performs no anchor rewriting. -/
theorem c8_variants_counterexample :
    containsSubL "/api/fetch-site?url=".data
        ((handler (some "https://e.com/") (some "relay.host")
          (fun _ => FetchOutcome.success
            ⟨"https://e.com/", 200, [("content-type", "text/html")],
              "<head></head><a href=\"/about\">x</a>"⟩)).body).data = true
    ∧ containsSubL "/fetch-site?url=".data
        ((middleware (some "https://e.com/") none
          (fun _ => FetchOutcome.success
            ⟨"https://e.com/", 200, [("content-type", "text/html")],
              "<head></head><a href=\"/about\">x</a>"⟩)).body).data = true
    ∧ containsSubL "fetch-site?url=".data
        "<head></head><a href=\"/about\">x</a>".data = false := by
  refine ⟨by decide, by decide, by decide⟩

/-! ### Claim theorems on the request handlers -/

/-- C7: every failure of the outbound fetch is surfaced, in both
deployment variants, as status 502 with a plain-text body that starts
with the proxy error prefix followed by the failure description.  The
error is caught at the outermost scope of the handler (the single
failure outcome of the fetch collaborator models every error thrown
inside the try block, including failures during rewriting), so no
framework-level 500 arises, and the collaborator is consulted exactly
once with no retry. -/
theorem c7_fetch_failure_502 (raw : String) (host : Option String)
    (f : String → FetchOutcome) (target : URLRec) (msg : String)
    (hp : parseJsURL raw = some target)
    (hf : f (urlToString target) = FetchOutcome.failure msg) :
    handler (some raw) host f = ⟨502, [], "Proxy error: " ++ msg⟩
    ∧ middleware (some raw) host f
        = ⟨502, [("Content-Type", "text/plain")], "Proxy error: " ++ msg⟩
    ∧ hasPrefL "Proxy error: ".data ("Proxy error: " ++ msg).data = true := by
  have hraw : (raw == "") = false := by
    rw [beq_eq_false_iff_ne]
    intro hc
    subst hc
    rw [show parseJsURL "" = none from rfl] at hp
    exact absurd hp (by simp)
  refine ⟨?_, ?_, by rw [String.data_append]; exact hasPrefL_append _ _⟩
  · unfold handler
    dsimp only
    rw [if_neg (by simp [hraw]), hp]
    dsimp only
    rw [hf]
  · unfold middleware
    dsimp only
    rw [if_neg (by simp [hraw]), hp]
    dsimp only
    rw [hf]

/-- Witness for C7 at a concrete request and failing fetch. -/
theorem c7_fetch_failure_502_witness :
    handler (some "https://e.com/") (some "relay.host")
        (fun _ => FetchOutcome.failure "getaddrinfo ENOTFOUND e.com")
      = ⟨502, [], "Proxy error: " ++ "getaddrinfo ENOTFOUND e.com"⟩
    ∧ middleware (some "https://e.com/") (some "relay.host")
        (fun _ => FetchOutcome.failure "getaddrinfo ENOTFOUND e.com")
      = ⟨502, [("Content-Type", "text/plain")],
          "Proxy error: " ++ "getaddrinfo ENOTFOUND e.com"⟩
    ∧ hasPrefL "Proxy error: ".data
        ("Proxy error: " ++ "getaddrinfo ENOTFOUND e.com").data = true :=
  c7_fetch_failure_502 "https://e.com/" (some "relay.host")
    (fun _ => FetchOutcome.failure "getaddrinfo ENOTFOUND e.com")
    ⟨"https", true, "e.com", "/", "", ""⟩ "getaddrinfo ENOTFOUND e.com"
    (by decide) (by decide)

/-- C2 (amended): a missing or empty url parameter yields 400 with the
exact missing-parameter text in both variants; a url value that fails
to parse as a URL yields 400 with the exact text Invalid URL in the
serverless handler, but 502 with a proxy-error body in the middleware
(whose URL constructor throws inside the try block); no network-scheme
check is performed in either variant. -/
theorem c2_validation_amended (host : Option String) (f : String → FetchOutcome) :
    handler none host f = ⟨400, [], "Missing ?url= parameter"⟩
    ∧ handler (some "") host f = ⟨400, [], "Missing ?url= parameter"⟩
    ∧ (∀ raw : String, ¬ raw = "" → parseJsURL raw = none →
        handler (some raw) host f = ⟨400, [], "Invalid URL"⟩)
    ∧ middleware none host f = ⟨400, [("Content-Type", "text/plain")], "Missing ?url= parameter"⟩
    ∧ middleware (some "") host f
        = ⟨400, [("Content-Type", "text/plain")], "Missing ?url= parameter"⟩
    ∧ (∀ raw : String, ¬ raw = "" → parseJsURL raw = none →
        middleware (some raw) host f
          = ⟨502, [("Content-Type", "text/plain")], "Proxy error: Invalid URL"⟩) := by
  refine ⟨rfl, rfl, ?_, rfl, rfl, ?_⟩
  · intro raw hne hnone
    unfold handler
    dsimp only
    rw [if_neg (by simp [hne]), hnone]
  · intro raw hne hnone
    unfold middleware
    dsimp only
    rw [if_neg (by simp [hne]), hnone]

/-- Witness for the amended C2 theorem at concrete requests. -/
theorem c2_validation_amended_witness :
    handler none none (fun _ => FetchOutcome.failure "x")
      = ⟨400, [], "Missing ?url= parameter"⟩
    ∧ handler (some "::not a url::") none (fun _ => FetchOutcome.failure "x")
      = ⟨400, [], "Invalid URL"⟩
    ∧ middleware (some "::not a url::") none (fun _ => FetchOutcome.failure "x")
      = ⟨502, [("Content-Type", "text/plain")], "Proxy error: Invalid URL"⟩ :=
  ⟨(c2_validation_amended none (fun _ => FetchOutcome.failure "x")).1,
    (c2_validation_amended none (fun _ => FetchOutcome.failure "x")).2.2.1
      "::not a url::" (by decide) (by decide),
    (c2_validation_amended none (fun _ => FetchOutcome.failure "x")).2.2.2.2.2
      "::not a url::" (by decide) (by decide)⟩

/-- C2 (counterexample): the value mailto colon someone at
example.com parses as a URL with a non-network scheme, yet the
serverless handler does not answer 400 with Invalid URL: it proceeds
to the fetch and surfaces the fetch failure as 502.  This refutes the
part of the claim requiring 400 for every value that does not parse as
an absolute URL with a network scheme. -/
theorem c2_validation_counterexample :
    parseJsURL "mailto:someone@example.com"
      = some ⟨"mailto", false, "", "someone@example.com", "", ""⟩
    ∧ NETWORK_SCHEMES.contains "mailto" = false
    ∧ handler (some "mailto:someone@example.com") (some "h")
        (fun _ => FetchOutcome.failure "fetch failed")
      = ⟨502, [], "Proxy error: fetch failed"⟩
    ∧ (handler (some "mailto:someone@example.com") (some "h")
        (fun _ => FetchOutcome.failure "fetch failed")).status ≠ 400
    ∧ (handler (some "mailto:someone@example.com") (some "h")
        (fun _ => FetchOutcome.failure "fetch failed")).body ≠ "Invalid URL" := by
  refine ⟨by decide, by decide, by decide, by decide, by decide⟩

/-- C3 (amended): the origin used by the HTML rewriter is the origin
of the originally requested URL; the final URL of the upstream
response after redirects is never consulted, so upstream responses
differing only in their final URL produce identical relay responses in
both variants. -/
theorem c3_final_url_ignored (raw : String) (host : Option String)
    (status : Nat) (hs : List (String × String)) (body : String) (u1 u2 : String) :
    handler (some raw) host (fun _ => FetchOutcome.success ⟨u1, status, hs, body⟩)
      = handler (some raw) host (fun _ => FetchOutcome.success ⟨u2, status, hs, body⟩)
    ∧ middleware (some raw) host (fun _ => FetchOutcome.success ⟨u1, status, hs, body⟩)
      = middleware (some raw) host (fun _ => FetchOutcome.success ⟨u2, status, hs, body⟩) := by
  exact ⟨rfl, rfl⟩

/-- C3 (counterexample): a fetch of a page on origin a.example whose
response reports the post-redirect final URL on origin b.example still
gets its base tag built from a.example, and the emitted body never
mentions b.example.  This refutes the claim that the rewriter keys off
the origin of the final response URL after redirects. -/
theorem c3_redirect_origin_counterexample :
    (handler (some "https://a.example/page") (some "relay.host")
      (fun _ => FetchOutcome.success ⟨"https://b.example/page", 200,
        [("content-type", "text/html")], "<html><head></head><body>hi</body></html>"⟩)).body
      = "<html><head>" ++ baseTag "https://a.example" ++ "</head><body>hi</body></html>"
    ∧ containsSubL "https://a.example/".data
        (((handler (some "https://a.example/page") (some "relay.host")
          (fun _ => FetchOutcome.success ⟨"https://b.example/page", 200,
            [("content-type", "text/html")],
            "<html><head></head><body>hi</body></html>"⟩)).body).data) = true
    ∧ containsSubL "b.example".data
        (((handler (some "https://a.example/page") (some "relay.host")
          (fun _ => FetchOutcome.success ⟨"https://b.example/page", 200,
            [("content-type", "text/html")],
            "<html><head></head><body>hi</body></html>"⟩)).body).data) = false := by
  refine ⟨by decide, by decide, by decide⟩

/-! ### Reduction of the success branches of the two handlers -/

/-- Header set emitted by the serverless handler on a successful
fetch, by content-type branch. -/
theorem handler_success_headers (raw : String) (host : Option String)
    (f : String → FetchOutcome) (target : URLRec) (up : FetchResponse)
    (hp : parseJsURL raw = some target)
    (hf : f (urlToString target) = FetchOutcome.success up) :
    (handler (some raw) host f).headers =
      if containsSubL ['t', 'e', 'x', 't', '/', 'h', 't', 'm', 'l']
          ((headersGet up.headers "content-type").getD "").data then
        removeHeader (setHeader (setHeader (setHeader
          (up.headers.foldl
            (fun acc kv => if isBlocked (lowerStr kv.1) then acc else setHeader acc kv.1 kv.2) [])
          "x-frame-options" "ALLOWALL") "access-control-allow-origin" "*")
          "content-type" "text/html; charset=utf-8") "content-length"
      else
        setHeader (setHeader
          (up.headers.foldl
            (fun acc kv => if isBlocked (lowerStr kv.1) then acc else setHeader acc kv.1 kv.2) [])
          "x-frame-options" "ALLOWALL") "access-control-allow-origin" "*" := by
  have hraw : (raw == "") = false := by
    rw [beq_eq_false_iff_ne]
    intro hc
    subst hc
    rw [show parseJsURL "" = none from rfl] at hp
    exact absurd hp (by simp)
  unfold handler
  dsimp only
  rw [if_neg (by simp [hraw]), hp]
  dsimp only
  rw [hf]
  dsimp only
  by_cases hct : containsSubL ['t', 'e', 'x', 't', '/', 'h', 't', 'm', 'l']
      ((headersGet up.headers "content-type").getD "").data = true
  · rw [if_pos hct, if_pos hct]
  · rw [if_neg hct, if_neg hct]

/-- Header set emitted by the middleware on a successful fetch, by
content-type branch. -/
theorem middleware_success_headers (raw : String) (host : Option String)
    (f : String → FetchOutcome) (target : URLRec) (up : FetchResponse)
    (hp : parseJsURL raw = some target)
    (hf : f (urlToString target) = FetchOutcome.success up) :
    (middleware (some raw) host f).headers =
      if containsSubL ['t', 'e', 'x', 't', '/', 'h', 't', 'm', 'l']
          ((headersGet up.headers "content-type").getD "").data then
        writeHeadHeaders (recDel (recSet (recSet (recSet
          (up.headers.foldl
            (fun acc kv => if isBlocked (lowerStr kv.1) then acc else recSet acc kv.1 kv.2) [])
          "x-frame-options" "ALLOWALL") "access-control-allow-origin" "*")
          "content-type" "text/html; charset=utf-8") "content-length")
      else
        writeHeadHeaders (recSet (recSet (recSet
          (up.headers.foldl
            (fun acc kv => if isBlocked (lowerStr kv.1) then acc else recSet acc kv.1 kv.2) [])
          "x-frame-options" "ALLOWALL") "access-control-allow-origin" "*")
          "content-length" (toString up.body.length)) := by
  have hraw : (raw == "") = false := by
    rw [beq_eq_false_iff_ne]
    intro hc
    subst hc
    rw [show parseJsURL "" = none from rfl] at hp
    exact absurd hp (by simp)
  unfold middleware
  dsimp only
  rw [if_neg (by simp [hraw]), hp]
  dsimp only
  rw [hf]
  dsimp only
  by_cases hct : containsSubL ['t', 'e', 'x', 't', '/', 'h', 't', 'm', 'l']
      ((headersGet up.headers "content-type").getD "").data = true
  · rw [if_pos hct, if_pos hct]
  · rw [if_neg hct, if_neg hct]

/-- Lookup through the header operations of the serverless HTML branch
for names untouched by the four forced operations. -/
theorem serverless_html_lookup_other (hsf : List (String × String)) (b : String)
    (h1 : ¬ lowerStr "content-length" = lowerStr b)
    (h2 : ¬ lowerStr "content-type" = lowerStr b)
    (h3 : ¬ lowerStr "access-control-allow-origin" = lowerStr b)
    (h4 : ¬ lowerStr "x-frame-options" = lowerStr b) :
    ciLookup (removeHeader (setHeader (setHeader (setHeader hsf "x-frame-options" "ALLOWALL")
        "access-control-allow-origin" "*") "content-type" "text/html; charset=utf-8")
        "content-length") b
      = ciLookup hsf b := by
  rw [ciLookup_removeHeader, if_neg h1, ciLookup_setHeader, if_neg h2,
    ciLookup_setHeader, if_neg h3, ciLookup_setHeader, if_neg h4]

/-- The blocked-name filter of the upstream headers never answers a
lookup of a blocked name. -/
theorem ciLookup_filter_blocked (ups : List (String × String)) (b : String)
    (hb : isBlocked (lowerStr b) = true) :
    ciLookup (ups.filter (fun kv => !(isBlocked (lowerStr kv.1)))) b = none := by
  unfold ciLookup
  rw [show (ups.filter (fun kv => !(isBlocked (lowerStr kv.1)))).find?
      (fun p => lowerStr p.1 == lowerStr b) = none from ?_]
  · rfl
  · rw [List.find?_eq_none]
    intro x hx
    have h2 := (List.mem_filter.mp hx).2
    simp only [Bool.not_eq_eq_eq_not, Bool.not_true] at h2
    simp only [beq_iff_eq]
    intro hc
    rw [hc, hb] at h2
    exact Bool.true_eq_false.mp h2

/-- C1: for every successfully fetched upstream response, the headers
emitted by both deployment variants contain none of the seven blocked
header names compared case-insensitively (the five framing headers and
the two transport-framing headers), except that the x-frame-options
name is re-introduced with the exact forced value, and the emitted
headers always answer x-frame-options with exactly ALLOWALL and
access-control-allow-origin with exactly the star value, overriding
any upstream value.  The upstream header list carries lowercase,
pairwise distinct names, as the platform header object guarantees for
its iteration. -/
theorem c1_header_policy (raw : String) (host : Option String) (f : String → FetchOutcome)
    (target : URLRec) (up : FetchResponse)
    (hp : parseJsURL raw = some target)
    (hf : f (urlToString target) = FetchOutcome.success up)
    (hA : ∀ e ∈ up.headers, lowerStr e.1 = e.1)
    (hN : (up.headers.map (fun p => p.1)).Nodup) :
    (ciLookup (handler (some raw) host f).headers "x-frame-options" = some "ALLOWALL"
      ∧ ciLookup (handler (some raw) host f).headers "access-control-allow-origin" = some "*"
      ∧ ciLookup (handler (some raw) host f).headers "content-security-policy" = none
      ∧ ciLookup (handler (some raw) host f).headers "content-security-policy-report-only" = none
      ∧ ciLookup (handler (some raw) host f).headers "cross-origin-opener-policy" = none
      ∧ ciLookup (handler (some raw) host f).headers "cross-origin-embedder-policy" = none
      ∧ ciLookup (handler (some raw) host f).headers "content-encoding" = none
      ∧ ciLookup (handler (some raw) host f).headers "transfer-encoding" = none)
    ∧ (ciLookup (middleware (some raw) host f).headers "x-frame-options" = some "ALLOWALL"
      ∧ ciLookup (middleware (some raw) host f).headers "access-control-allow-origin" = some "*"
      ∧ ciLookup (middleware (some raw) host f).headers "content-security-policy" = none
      ∧ ciLookup (middleware (some raw) host f).headers "content-security-policy-report-only" = none
      ∧ ciLookup (middleware (some raw) host f).headers "cross-origin-opener-policy" = none
      ∧ ciLookup (middleware (some raw) host f).headers "cross-origin-embedder-policy" = none
      ∧ ciLookup (middleware (some raw) host f).headers "content-encoding" = none
      ∧ ciLookup (middleware (some raw) host f).headers "transfer-encoding" = none) := by
  have hH := handler_success_headers raw host f target up hp hf
  have hM := middleware_success_headers raw host f target up hp hf
  have hr0 := fold_recStep_filter up.headers hN
  have hA0 : ∀ e ∈ up.headers.filter (fun kv => !(isBlocked (lowerStr kv.1))),
      lowerStr e.1 = e.1 := fun e he => hA e (List.mem_of_mem_filter he)
  have hN0 : ((up.headers.filter (fun kv => !(isBlocked (lowerStr kv.1)))).map
      (fun p => p.1)).Nodup :=
    List.Nodup.sublist (List.Sublist.map _ (List.filter_sublist _)) hN
  have hP1 := recSet_preserves (up.headers.filter (fun kv => !(isBlocked (lowerStr kv.1))))
    "x-frame-options" "ALLOWALL" hA0 hN0 (by decide)
  have hP2 := recSet_preserves _ "access-control-allow-origin" "*" hP1.1 hP1.2 (by decide)
  have hP3 := recSet_preserves _ "content-type" "text/html; charset=utf-8" hP2.1 hP2.2 (by decide)
  have hP4 := recDel_preserves _ "content-length" hP3.1 hP3.2
  have hP5 := recSet_preserves _ "content-length" (toString up.body.length) hP2.1 hP2.2 (by decide)
  have hWH1 := writeHead_id _ (by
    rw [List.map_congr_left (fun x hx => hP4.1 x hx)]
    exact hP4.2)
  have hWH2 := writeHead_id _ (by
    rw [List.map_congr_left (fun x hx => hP5.1 x hx)]
    exact hP5.2)
  by_cases hct : containsSubL ['t', 'e', 'x', 't', '/', 'h', 't', 'm', 'l']
      ((headersGet up.headers "content-type").getD "").data = true
  · rw [hH, hM, if_pos hct, if_pos hct, hr0, hWH1]
    refine ⟨⟨?_, ?_, ?_, ?_, ?_, ?_, ?_, ?_⟩, ?_, ?_, ?_, ?_, ?_, ?_, ?_, ?_⟩
    · rw [ciLookup_removeHeader, if_neg (by decide), ciLookup_setHeader, if_neg (by decide),
        ciLookup_setHeader, if_neg (by decide), ciLookup_setHeader, if_pos (by decide)]
    · rw [ciLookup_removeHeader, if_neg (by decide), ciLookup_setHeader, if_neg (by decide),
        ciLookup_setHeader, if_pos (by decide)]
    · rw [serverless_html_lookup_other _ "content-security-policy" (by decide) (by decide) (by decide) (by decide)]
      exact ciLookup_fwd_none up.headers "content-security-policy" (by decide)
    · rw [serverless_html_lookup_other _ "content-security-policy-report-only" (by decide) (by decide) (by decide) (by decide)]
      exact ciLookup_fwd_none up.headers "content-security-policy-report-only" (by decide)
    · rw [serverless_html_lookup_other _ "cross-origin-opener-policy" (by decide) (by decide) (by decide) (by decide)]
      exact ciLookup_fwd_none up.headers "cross-origin-opener-policy" (by decide)
    · rw [serverless_html_lookup_other _ "cross-origin-embedder-policy" (by decide) (by decide) (by decide) (by decide)]
      exact ciLookup_fwd_none up.headers "cross-origin-embedder-policy" (by decide)
    · rw [serverless_html_lookup_other _ "content-encoding" (by decide) (by decide) (by decide) (by decide)]
      exact ciLookup_fwd_none up.headers "content-encoding" (by decide)
    · rw [serverless_html_lookup_other _ "transfer-encoding" (by decide) (by decide) (by decide) (by decide)]
      exact ciLookup_fwd_none up.headers "transfer-encoding" (by decide)
    · rw [ciLookup_recDel_other _ "content-length" "x-frame-options" (by decide) (by decide),
        ciLookup_recSet_other _ "content-type" _ "x-frame-options" (by decide),
        ciLookup_recSet_other _ "access-control-allow-origin" _ "x-frame-options" (by decide)]
      exact ciLookup_recSet_self _ "x-frame-options" "ALLOWALL" hA0 (by decide)
    · rw [ciLookup_recDel_other _ "content-length" "access-control-allow-origin" (by decide) (by decide),
        ciLookup_recSet_other _ "content-type" _ "access-control-allow-origin" (by decide)]
      exact ciLookup_recSet_self _ "access-control-allow-origin" "*" hP1.1 (by decide)
    · rw [ciLookup_recDel_other _ "content-length" "content-security-policy" (by decide) (by decide),
        ciLookup_recSet_other _ "content-type" _ "content-security-policy" (by decide),
        ciLookup_recSet_other _ "access-control-allow-origin" _ "content-security-policy" (by decide),
        ciLookup_recSet_other _ "x-frame-options" _ "content-security-policy" (by decide)]
      exact ciLookup_filter_blocked up.headers "content-security-policy" (by decide)
    · rw [ciLookup_recDel_other _ "content-length" "content-security-policy-report-only" (by decide) (by decide),
        ciLookup_recSet_other _ "content-type" _ "content-security-policy-report-only" (by decide),
        ciLookup_recSet_other _ "access-control-allow-origin" _ "content-security-policy-report-only" (by decide),
        ciLookup_recSet_other _ "x-frame-options" _ "content-security-policy-report-only" (by decide)]
      exact ciLookup_filter_blocked up.headers "content-security-policy-report-only" (by decide)
    · rw [ciLookup_recDel_other _ "content-length" "cross-origin-opener-policy" (by decide) (by decide),
        ciLookup_recSet_other _ "content-type" _ "cross-origin-opener-policy" (by decide),
        ciLookup_recSet_other _ "access-control-allow-origin" _ "cross-origin-opener-policy" (by decide),
        ciLookup_recSet_other _ "x-frame-options" _ "cross-origin-opener-policy" (by decide)]
      exact ciLookup_filter_blocked up.headers "cross-origin-opener-policy" (by decide)
    · rw [ciLookup_recDel_other _ "content-length" "cross-origin-embedder-policy" (by decide) (by decide),
        ciLookup_recSet_other _ "content-type" _ "cross-origin-embedder-policy" (by decide),
        ciLookup_recSet_other _ "access-control-allow-origin" _ "cross-origin-embedder-policy" (by decide),
        ciLookup_recSet_other _ "x-frame-options" _ "cross-origin-embedder-policy" (by decide)]
      exact ciLookup_filter_blocked up.headers "cross-origin-embedder-policy" (by decide)
    · rw [ciLookup_recDel_other _ "content-length" "content-encoding" (by decide) (by decide),
        ciLookup_recSet_other _ "content-type" _ "content-encoding" (by decide),
        ciLookup_recSet_other _ "access-control-allow-origin" _ "content-encoding" (by decide),
        ciLookup_recSet_other _ "x-frame-options" _ "content-encoding" (by decide)]
      exact ciLookup_filter_blocked up.headers "content-encoding" (by decide)
    · rw [ciLookup_recDel_other _ "content-length" "transfer-encoding" (by decide) (by decide),
        ciLookup_recSet_other _ "content-type" _ "transfer-encoding" (by decide),
        ciLookup_recSet_other _ "access-control-allow-origin" _ "transfer-encoding" (by decide),
        ciLookup_recSet_other _ "x-frame-options" _ "transfer-encoding" (by decide)]
      exact ciLookup_filter_blocked up.headers "transfer-encoding" (by decide)
  · rw [hH, hM, if_neg hct, if_neg hct, hr0, hWH2]
    refine ⟨⟨?_, ?_, ?_, ?_, ?_, ?_, ?_, ?_⟩, ?_, ?_, ?_, ?_, ?_, ?_, ?_, ?_⟩
    · rw [ciLookup_setHeader, if_neg (by decide), ciLookup_setHeader, if_pos (by decide)]
    · rw [ciLookup_setHeader, if_pos (by decide)]
    · rw [ciLookup_setHeader, if_neg (by decide), ciLookup_setHeader, if_neg (by decide)]
      exact ciLookup_fwd_none up.headers "content-security-policy" (by decide)
    · rw [ciLookup_setHeader, if_neg (by decide), ciLookup_setHeader, if_neg (by decide)]
      exact ciLookup_fwd_none up.headers "content-security-policy-report-only" (by decide)
    · rw [ciLookup_setHeader, if_neg (by decide), ciLookup_setHeader, if_neg (by decide)]
      exact ciLookup_fwd_none up.headers "cross-origin-opener-policy" (by decide)
    · rw [ciLookup_setHeader, if_neg (by decide), ciLookup_setHeader, if_neg (by decide)]
      exact ciLookup_fwd_none up.headers "cross-origin-embedder-policy" (by decide)
    · rw [ciLookup_setHeader, if_neg (by decide), ciLookup_setHeader, if_neg (by decide)]
      exact ciLookup_fwd_none up.headers "content-encoding" (by decide)
    · rw [ciLookup_setHeader, if_neg (by decide), ciLookup_setHeader, if_neg (by decide)]
      exact ciLookup_fwd_none up.headers "transfer-encoding" (by decide)
    · rw [ciLookup_recSet_other _ "content-length" _ "x-frame-options" (by decide),
        ciLookup_recSet_other _ "access-control-allow-origin" _ "x-frame-options" (by decide)]
      exact ciLookup_recSet_self _ "x-frame-options" "ALLOWALL" hA0 (by decide)
    · rw [ciLookup_recSet_other _ "content-length" _ "access-control-allow-origin" (by decide)]
      exact ciLookup_recSet_self _ "access-control-allow-origin" "*" hP1.1 (by decide)
    · rw [ciLookup_recSet_other _ "content-length" _ "content-security-policy" (by decide),
        ciLookup_recSet_other _ "access-control-allow-origin" _ "content-security-policy" (by decide),
        ciLookup_recSet_other _ "x-frame-options" _ "content-security-policy" (by decide)]
      exact ciLookup_filter_blocked up.headers "content-security-policy" (by decide)
    · rw [ciLookup_recSet_other _ "content-length" _ "content-security-policy-report-only" (by decide),
        ciLookup_recSet_other _ "access-control-allow-origin" _ "content-security-policy-report-only" (by decide),
        ciLookup_recSet_other _ "x-frame-options" _ "content-security-policy-report-only" (by decide)]
      exact ciLookup_filter_blocked up.headers "content-security-policy-report-only" (by decide)
    · rw [ciLookup_recSet_other _ "content-length" _ "cross-origin-opener-policy" (by decide),
        ciLookup_recSet_other _ "access-control-allow-origin" _ "cross-origin-opener-policy" (by decide),
        ciLookup_recSet_other _ "x-frame-options" _ "cross-origin-opener-policy" (by decide)]
      exact ciLookup_filter_blocked up.headers "cross-origin-opener-policy" (by decide)
    · rw [ciLookup_recSet_other _ "content-length" _ "cross-origin-embedder-policy" (by decide),
        ciLookup_recSet_other _ "access-control-allow-origin" _ "cross-origin-embedder-policy" (by decide),
        ciLookup_recSet_other _ "x-frame-options" _ "cross-origin-embedder-policy" (by decide)]
      exact ciLookup_filter_blocked up.headers "cross-origin-embedder-policy" (by decide)
    · rw [ciLookup_recSet_other _ "content-length" _ "content-encoding" (by decide),
        ciLookup_recSet_other _ "access-control-allow-origin" _ "content-encoding" (by decide),
        ciLookup_recSet_other _ "x-frame-options" _ "content-encoding" (by decide)]
      exact ciLookup_filter_blocked up.headers "content-encoding" (by decide)
    · rw [ciLookup_recSet_other _ "content-length" _ "transfer-encoding" (by decide),
        ciLookup_recSet_other _ "access-control-allow-origin" _ "transfer-encoding" (by decide),
        ciLookup_recSet_other _ "x-frame-options" _ "transfer-encoding" (by decide)]
      exact ciLookup_filter_blocked up.headers "transfer-encoding" (by decide)

/-- Witness for C1 at a concrete request whose upstream response
carries blocked framing headers and an upstream value for the
access-control-allow-origin name. -/
theorem c1_header_policy_witness :
    ciLookup (handler (some "https://e.com/") (some "relay.host")
        (fun _ => FetchOutcome.success ⟨"https://e.com/", 200,
          [("content-type", "text/html"), ("content-security-policy", "default-src"),
            ("x-frame-options", "DENY"), ("access-control-allow-origin", "https://x.example"),
            ("content-encoding", "gzip"), ("server", "nginx")],
          "<head></head>ok"⟩)).headers "x-frame-options" = some "ALLOWALL"
    ∧ ciLookup (handler (some "https://e.com/") (some "relay.host")
        (fun _ => FetchOutcome.success ⟨"https://e.com/", 200,
          [("content-type", "text/html"), ("content-security-policy", "default-src"),
            ("x-frame-options", "DENY"), ("access-control-allow-origin", "https://x.example"),
            ("content-encoding", "gzip"), ("server", "nginx")],
          "<head></head>ok"⟩)).headers "access-control-allow-origin" = some "*"
    ∧ ciLookup (handler (some "https://e.com/") (some "relay.host")
        (fun _ => FetchOutcome.success ⟨"https://e.com/", 200,
          [("content-type", "text/html"), ("content-security-policy", "default-src"),
            ("x-frame-options", "DENY"), ("access-control-allow-origin", "https://x.example"),
            ("content-encoding", "gzip"), ("server", "nginx")],
          "<head></head>ok"⟩)).headers "content-security-policy" = none
    ∧ ciLookup (handler (some "https://e.com/") (some "relay.host")
        (fun _ => FetchOutcome.success ⟨"https://e.com/", 200,
          [("content-type", "text/html"), ("content-security-policy", "default-src"),
            ("x-frame-options", "DENY"), ("access-control-allow-origin", "https://x.example"),
            ("content-encoding", "gzip"), ("server", "nginx")],
          "<head></head>ok"⟩)).headers "content-security-policy-report-only" = none
    ∧ ciLookup (handler (some "https://e.com/") (some "relay.host")
        (fun _ => FetchOutcome.success ⟨"https://e.com/", 200,
          [("content-type", "text/html"), ("content-security-policy", "default-src"),
            ("x-frame-options", "DENY"), ("access-control-allow-origin", "https://x.example"),
            ("content-encoding", "gzip"), ("server", "nginx")],
          "<head></head>ok"⟩)).headers "cross-origin-opener-policy" = none
    ∧ ciLookup (handler (some "https://e.com/") (some "relay.host")
        (fun _ => FetchOutcome.success ⟨"https://e.com/", 200,
          [("content-type", "text/html"), ("content-security-policy", "default-src"),
            ("x-frame-options", "DENY"), ("access-control-allow-origin", "https://x.example"),
            ("content-encoding", "gzip"), ("server", "nginx")],
          "<head></head>ok"⟩)).headers "cross-origin-embedder-policy" = none
    ∧ ciLookup (handler (some "https://e.com/") (some "relay.host")
        (fun _ => FetchOutcome.success ⟨"https://e.com/", 200,
          [("content-type", "text/html"), ("content-security-policy", "default-src"),
            ("x-frame-options", "DENY"), ("access-control-allow-origin", "https://x.example"),
            ("content-encoding", "gzip"), ("server", "nginx")],
          "<head></head>ok"⟩)).headers "content-encoding" = none
    ∧ ciLookup (handler (some "https://e.com/") (some "relay.host")
        (fun _ => FetchOutcome.success ⟨"https://e.com/", 200,
          [("content-type", "text/html"), ("content-security-policy", "default-src"),
            ("x-frame-options", "DENY"), ("access-control-allow-origin", "https://x.example"),
            ("content-encoding", "gzip"), ("server", "nginx")],
          "<head></head>ok"⟩)).headers "transfer-encoding" = none
    ∧ ciLookup (middleware (some "https://e.com/") (some "relay.host")
        (fun _ => FetchOutcome.success ⟨"https://e.com/", 200,
          [("content-type", "text/html"), ("content-security-policy", "default-src"),
            ("x-frame-options", "DENY"), ("access-control-allow-origin", "https://x.example"),
            ("content-encoding", "gzip"), ("server", "nginx")],
          "<head></head>ok"⟩)).headers "x-frame-options" = some "ALLOWALL"
    ∧ ciLookup (middleware (some "https://e.com/") (some "relay.host")
        (fun _ => FetchOutcome.success ⟨"https://e.com/", 200,
          [("content-type", "text/html"), ("content-security-policy", "default-src"),
            ("x-frame-options", "DENY"), ("access-control-allow-origin", "https://x.example"),
            ("content-encoding", "gzip"), ("server", "nginx")],
          "<head></head>ok"⟩)).headers "access-control-allow-origin" = some "*"
    ∧ ciLookup (middleware (some "https://e.com/") (some "relay.host")
        (fun _ => FetchOutcome.success ⟨"https://e.com/", 200,
          [("content-type", "text/html"), ("content-security-policy", "default-src"),
            ("x-frame-options", "DENY"), ("access-control-allow-origin", "https://x.example"),
            ("content-encoding", "gzip"), ("server", "nginx")],
          "<head></head>ok"⟩)).headers "content-security-policy" = none
    ∧ ciLookup (middleware (some "https://e.com/") (some "relay.host")
        (fun _ => FetchOutcome.success ⟨"https://e.com/", 200,
          [("content-type", "text/html"), ("content-security-policy", "default-src"),
            ("x-frame-options", "DENY"), ("access-control-allow-origin", "https://x.example"),
            ("content-encoding", "gzip"), ("server", "nginx")],
          "<head></head>ok"⟩)).headers "content-security-policy-report-only" = none
    ∧ ciLookup (middleware (some "https://e.com/") (some "relay.host")
        (fun _ => FetchOutcome.success ⟨"https://e.com/", 200,
          [("content-type", "text/html"), ("content-security-policy", "default-src"),
            ("x-frame-options", "DENY"), ("access-control-allow-origin", "https://x.example"),
            ("content-encoding", "gzip"), ("server", "nginx")],
          "<head></head>ok"⟩)).headers "cross-origin-opener-policy" = none
    ∧ ciLookup (middleware (some "https://e.com/") (some "relay.host")
        (fun _ => FetchOutcome.success ⟨"https://e.com/", 200,
          [("content-type", "text/html"), ("content-security-policy", "default-src"),
            ("x-frame-options", "DENY"), ("access-control-allow-origin", "https://x.example"),
            ("content-encoding", "gzip"), ("server", "nginx")],
          "<head></head>ok"⟩)).headers "cross-origin-embedder-policy" = none
    ∧ ciLookup (middleware (some "https://e.com/") (some "relay.host")
        (fun _ => FetchOutcome.success ⟨"https://e.com/", 200,
          [("content-type", "text/html"), ("content-security-policy", "default-src"),
            ("x-frame-options", "DENY"), ("access-control-allow-origin", "https://x.example"),
            ("content-encoding", "gzip"), ("server", "nginx")],
          "<head></head>ok"⟩)).headers "content-encoding" = none
    ∧ ciLookup (middleware (some "https://e.com/") (some "relay.host")
        (fun _ => FetchOutcome.success ⟨"https://e.com/", 200,
          [("content-type", "text/html"), ("content-security-policy", "default-src"),
            ("x-frame-options", "DENY"), ("access-control-allow-origin", "https://x.example"),
            ("content-encoding", "gzip"), ("server", "nginx")],
          "<head></head>ok"⟩)).headers "transfer-encoding" = none := by
  have h := c1_header_policy "https://e.com/" (some "relay.host")
    (fun _ => FetchOutcome.success ⟨"https://e.com/", 200,
          [("content-type", "text/html"), ("content-security-policy", "default-src"),
            ("x-frame-options", "DENY"), ("access-control-allow-origin", "https://x.example"),
            ("content-encoding", "gzip"), ("server", "nginx")],
          "<head></head>ok"⟩)
    ⟨"https", true, "e.com", "/", "", ""⟩
    ⟨"https://e.com/", 200,
      [("content-type", "text/html"), ("content-security-policy", "default-src"),
        ("x-frame-options", "DENY"), ("access-control-allow-origin", "https://x.example"),
        ("content-encoding", "gzip"), ("server", "nginx")],
      "<head></head>ok"⟩
    (by decide) (by decide) (by decide) (by decide)
  exact ⟨h.1.1, h.1.2.1, h.1.2.2.1, h.1.2.2.2.1, h.1.2.2.2.2.1, h.1.2.2.2.2.2.1,
    h.1.2.2.2.2.2.2.1, h.1.2.2.2.2.2.2.2,
    h.2.1, h.2.2.1, h.2.2.2.1, h.2.2.2.2.1, h.2.2.2.2.2.1, h.2.2.2.2.2.2.1,
    h.2.2.2.2.2.2.2.1, h.2.2.2.2.2.2.2.2⟩
